import Mathlib

/-!
# Plug-warning check (`check.go`): shallow embedding and verified properties

The program inspects two marker files in the user data directory, loads plug
declarations from `plugs.yaml` and `meta/snap.yaml`, asks `snapctl` whether each
plug is connected, prints a warning and writes the marker files back.

Modelling choices:

* a Go `map[string]PlugStatus` is an association list; `set` and `delete` have
  the semantics of Go map assignment and `delete`, and a `for ... range` loop
  visits the entries in list order (Go leaves the order unspecified, so every
  result below holds for whichever order the list happens to have);
* the files the program touches are named by the type `File`; the outcome of
  each system call (`os.Stat`, `os.Open` + `yaml.Unmarshal`, `os.Create`,
  running `snapctl`) is an input of the model;
* a Go `error` is a `String`, a `(value, error)` result is a pair whose second
  component is an `Option Error` (`none` is Go's `nil`);
* every system call the program makes is recorded in a trace of `Event`s.
-/

namespace WarnPlugs

/-! ## Constants -/

def ALREADY_WARNED : String := "already_warned_plugs"
def WARNINGS_DISABLED : String := "plug_warnings_disabled"
def PLUG_DESCRIPTIONS : String := "plugs.yaml"

def MSG_OPTIONAL_PLUGS : String := "Consider connecting the following interfaces:"
def MSG_REQUIRED_PLUGS : String :=
  "The follow interfaces must be connected for app to work properly:"

/-! ## Data model -/

/-- A Go `error` value. -/
abbrev Error := String

/-- One declared plug (`type PlugStatus struct`). -/
structure PlugStatus where
  Required : Bool
  Reason : String
  Connected : Bool
deriving DecidableEq, Repr

/-- A Go `map[string]PlugStatus`, as an association list. -/
abbrev PlugMap := List (String × PlugStatus)

namespace PlugMap

/-- The keys of the map. -/
def keys (m : PlugMap) : List String := m.map Prod.fst

/-- The comma-ok lookup `v, ok := m[k]`. -/
def get? (m : PlugMap) (k : String) : Option PlugStatus :=
  match m with
  | [] => none
  | (k', v) :: rest => if k' = k then some v else get? rest k

/-- The test `_, ok := m[k]`. -/
def contains (m : PlugMap) (k : String) : Bool := (get? m k).isSome

/-- Map assignment `m[k] = v`: overwrite the entry of `k`, or add one. -/
def set (m : PlugMap) (k : String) (v : PlugStatus) : PlugMap :=
  match m with
  | [] => [(k, v)]
  | (k', v') :: rest => if k' = k then (k, v) :: rest else (k', v') :: set rest k v

/-- The builtin `delete(m, k)`. -/
def delete (m : PlugMap) (k : String) : PlugMap :=
  m.filter (fun e => decide (e.1 ≠ k))

end PlugMap

/-- The snapshot (`type warningState struct`). -/
structure warningState where
  WarningsDisabled : Bool
  AlreadyWarned : Bool
  OptionalPlugs : PlugMap
  RequiredPlugs : PlugMap
deriving DecidableEq, Repr

/-- The Go zero value `warningState{}` (nil maps are empty maps). -/
def warningState.zero : warningState :=
  { WarningsDisabled := false, AlreadyWarned := false, OptionalPlugs := [], RequiredPlugs := [] }

/-- The decoded `meta/snap.yaml` (`type snapYaml struct`): the `apps` map, each
app with its `plugs` list. -/
structure snapYaml where
  Apps : List (String × List String)
deriving DecidableEq, Repr

/-! ## The environment -/

/-- The files the program touches. -/
inductive File
  | alreadyWarned     -- filepath.Join(userDataDir, ALREADY_WARNED)
  | warningsDisabled  -- filepath.Join(userDataDir, WARNINGS_DISABLED)
  | plugsYaml         -- filepath.Join(snapDir, PLUG_DESCRIPTIONS)
  | snapYaml          -- filepath.Join(snapDir, "meta", "snap.yaml")
deriving DecidableEq, Repr

/-- The path of a file below the directory it is joined to (`userDataDir` for
the two markers, `snapDir` for the two YAML files). -/
def File.relPath : File → String
  | .alreadyWarned => ALREADY_WARNED
  | .warningsDisabled => WARNINGS_DISABLED
  | .plugsYaml => PLUG_DESCRIPTIONS
  | .snapYaml => "meta/snap.yaml"

/-- What `os.Stat` reports for a file: no error, an `IsNotExist` error, or
another error. -/
inductive FileStatus
  | found
  | notExist
  | failure (e : Error)
deriving DecidableEq, Repr

/-- The persistent two-marker flag store in the user data directory. -/
structure FlagStore where
  alreadyWarned : FileStatus
  warningsDisabled : FileStatus
deriving DecidableEq, Repr

/-- What opening and decoding `plugs.yaml` yields: `os.Open` fails, or
`yaml.Unmarshal` leaves `plugs` in the map with its own error result. -/
inductive PlugsYamlFile
  | openFails (e : Error)
  | decoded (plugs : PlugMap) (err : Option Error)
deriving DecidableEq, Repr

/-- What opening and decoding `meta/snap.yaml` yields. -/
inductive SnapYamlFile
  | openFails (e : Error)
  | decoded (snap : snapYaml) (err : Option Error)
deriving DecidableEq, Repr

/-- How running `snapctl is-connected <plug>` ends: exit status 0, a non-zero
exit status (`*exec.ExitError`), or a failure to run at all. -/
inductive CmdResult
  | success
  | exitError
  | otherError (e : Error)
deriving DecidableEq, Repr

/-- Everything outside the flag store that one run of the program sees. -/
structure Env where
  plugsYamlStat : FileStatus
  plugsYaml : PlugsYamlFile
  snapYaml : SnapYamlFile
  snapctl : String → CmdResult
  /-- the error, if any, of `os.Create` on a marker file -/
  createErr : File → Option Error

/-- The system calls of a run, in order. -/
inductive Event
  | stat (f : File)
  | openFile (f : File)
  | query (plugName : String)
  | create (f : File)
deriving DecidableEq, Repr

/-- Whether an event is a query of the connection oracle. -/
def Event.isQuery : Event → Bool
  | .query _ => true
  | _ => false

/-- Whether an event opens (loads) the given file. -/
def Event.isOpenOf (f : File) : Event → Bool
  | .openFile g => decide (g = f)
  | _ => false

/-! ## The program -/

/-- `checkFileFlag`, on the outcome of its `os.Stat` call. -/
def checkFileFlag (st : FileStatus) : Bool × Option Error :=
  match st with
  | .found => (true, none)
  | .notExist => (false, none)
  | .failure e => (false, some e)

/-- `plugIsConnected`, on the outcome of its `snapctl` command. -/
def plugIsConnected (r : CmdResult) : Bool × Option Error :=
  match r with
  | .success => (true, none)
  | .exitError => (false, none)
  | .otherError e => (false, some e)

/-- The partition loop of `loadPlugsYaml`:
`for plugName, plug := range plugs`. -/
def partitionPlugs : PlugMap → PlugMap → PlugMap → PlugMap × PlugMap
  | [], requiredPlugs, optionalPlugs => (requiredPlugs, optionalPlugs)
  | (plugName, plug) :: rest, requiredPlugs, optionalPlugs =>
    if plug.Required then
      partitionPlugs rest (requiredPlugs.set plugName plug) optionalPlugs
    else
      partitionPlugs rest requiredPlugs (optionalPlugs.set plugName plug)

/-- `loadPlugsYaml`: the result is `(requiredPlugs, optionalPlugs, err)`. -/
def loadPlugsYaml (file : PlugsYamlFile) : PlugMap × PlugMap × Option Error :=
  match file with
  | .openFails e => ([], [], some e)
  | .decoded plugs err =>
    let (requiredPlugs, optionalPlugs) := partitionPlugs plugs [] []
    (requiredPlugs, optionalPlugs, err)

/-- The inner loop of `loadFromSnapYaml`:
`for _, plugName := range snap.Apps[i].Plugs`. -/
def addAppPlugs : List String → PlugMap → PlugMap
  | [], plugs => plugs
  | plugName :: rest, plugs =>
    if plugs.contains plugName then
      addAppPlugs rest plugs
    else
      addAppPlugs rest
        (plugs.set plugName { Required := false, Reason := "", Connected := false })

/-- The outer loop of `loadFromSnapYaml`: `for i := range snap.Apps`. -/
def addSnapPlugs : List (String × List String) → PlugMap → PlugMap
  | [], plugs => plugs
  | app :: rest, plugs => addSnapPlugs rest (addAppPlugs app.2 plugs)

/-- `loadFromSnapYaml`: the map argument is updated in place, so the result is
the map after the call together with the returned error. -/
def loadFromSnapYaml (plugs : PlugMap) (file : SnapYamlFile) : PlugMap × Option Error :=
  match file with
  | .openFails e => (plugs, some e)
  | .decoded snap err =>
    match err with
    | some e => (plugs, some e)
    | none => (addSnapPlugs snap.Apps plugs, err)

/-- The first connection loop of `gatherState`:
`for plugName, plug := range requiredPlugs`. The arguments are the entries
still to visit, the two maps and the trace so far; the result is the two maps,
the error that stopped the loop (if any) and the trace. -/
def checkRequired (snapctl : String → CmdResult) :
    PlugMap → PlugMap → PlugMap → List Event → PlugMap × PlugMap × Option Error × List Event
  | [], requiredPlugs, optionalPlugs, trace => (requiredPlugs, optionalPlugs, none, trace)
  | (plugName, plug) :: rest, requiredPlugs, optionalPlugs, trace =>
    match plugIsConnected (snapctl plugName) with
    | (_, some e) => (requiredPlugs, optionalPlugs, some e, trace ++ [Event.query plugName])
    | (isConnected, none) =>
      checkRequired snapctl rest
        (requiredPlugs.set plugName { plug with Connected := isConnected })
        (optionalPlugs.delete plugName)
        (trace ++ [Event.query plugName])

/-- The second connection loop of `gatherState`:
`for plugName, plug := range optionalPlugs`. -/
def checkOptional (snapctl : String → CmdResult) :
    PlugMap → PlugMap → List Event → PlugMap × Option Error × List Event
  | [], optionalPlugs, trace => (optionalPlugs, none, trace)
  | (plugName, plug) :: rest, optionalPlugs, trace =>
    match plugIsConnected (snapctl plugName) with
    | (_, some e) => (optionalPlugs, some e, trace ++ [Event.query plugName])
    | (isConnected, none) =>
      checkOptional snapctl rest
        (optionalPlugs.set plugName { plug with Connected := isConnected })
        (trace ++ [Event.query plugName])

/-- What `gatherState` returns, `(warningState, error)`, with the trace of the
system calls it made. -/
structure GatherResult where
  state : warningState
  err : Option Error
  trace : List Event
deriving DecidableEq, Repr

/-- `gatherState`. -/
def gatherState (flags : FlagStore) (env : Env) : GatherResult :=
  let state := warningState.zero
  -- First check if warnings are disabled, so we can bail out early if they are.
  let trace := [Event.stat File.warningsDisabled]
  match checkFileFlag flags.warningsDisabled with
  | (_, some e) => ⟨state, some e, trace⟩
  | (disabled, none) =>
  let state := { state with WarningsDisabled := disabled }
  if state.WarningsDisabled then ⟨state, none, trace⟩ else
  -- Check if we have already warned the user about disconnected plugs
  let trace := trace ++ [Event.stat File.alreadyWarned]
  match checkFileFlag flags.alreadyWarned with
  | (_, some e) => ⟨state, some e, trace⟩
  | (warned, none) =>
  let state := { state with AlreadyWarned := warned }
  -- check if the plugs.yaml is included in the snap
  let trace := trace ++ [Event.stat File.plugsYaml]
  match checkFileFlag env.plugsYamlStat with
  | (_, some e) => ⟨state, some e, trace⟩
  | (plugsYamlExists, none) =>
  -- Load plug data
  let loaded : PlugMap × PlugMap × Option Error :=
    if plugsYamlExists then loadPlugsYaml env.plugsYaml else ([], [], none)
  let trace := if plugsYamlExists then trace ++ [Event.openFile File.plugsYaml] else trace
  match loaded with
  | (_, _, some e) => ⟨state, some e, trace⟩
  | (requiredPlugs, optionalPlugs, none) =>
  -- if we have already warned the user clear any optional plugs
  let optionalPlugs : PlugMap := if state.AlreadyWarned then [] else optionalPlugs
  -- if we have not warned the user also include any interfaces from the meta/snap.yaml
  let fromSnap : PlugMap × Option Error :=
    if !state.AlreadyWarned then loadFromSnapYaml optionalPlugs env.snapYaml
    else (optionalPlugs, none)
  let trace := if !state.AlreadyWarned then trace ++ [Event.openFile File.snapYaml] else trace
  match fromSnap with
  | (_, some e) => ⟨state, some e, trace⟩
  | (optionalPlugs, none) =>
  -- Finally check which plugs are connected.
  match checkRequired env.snapctl requiredPlugs requiredPlugs optionalPlugs trace with
  | (_, _, some e, trace) => ⟨state, some e, trace⟩
  | (requiredPlugs, optionalPlugs, none, trace) =>
  match checkOptional env.snapctl optionalPlugs optionalPlugs trace with
  | (_, some e, trace) => ⟨state, some e, trace⟩
  | (optionalPlugs, none, trace) =>
  ⟨{ state with OptionalPlugs := optionalPlugs, RequiredPlugs := requiredPlugs }, none, trace⟩

/-- The line `fmt.Sprintf("\t%s\t\t- %s\n", plugName, plug.Reason)`. -/
def plugLine (plugName : String) (reason : String) : String :=
  "\t" ++ plugName ++ "\t\t- " ++ reason ++ "\n"

/-- The two message loops of `getWarnMessage` (the same loop body, over
`state.OptionalPlugs` and over `state.RequiredPlugs`): append to `msg` the line
of every plug that is not connected. -/
def appendDisconnected : PlugMap → String → String
  | [], msg => msg
  | (plugName, plug) :: rest, msg =>
    if plug.Connected then appendDisconnected rest msg
    else appendDisconnected rest (msg ++ plugLine plugName plug.Reason)

/-- `getWarnMessage`. -/
def getWarnMessage (state : warningState) : String :=
  if state.WarningsDisabled then "" else
  let msg := ""
  -- We have not yet warned about optional plugs, create the message for optional plugs
  let msg := if !state.AlreadyWarned then appendDisconnected state.OptionalPlugs msg else msg
  -- add header if there are some optional plugs
  let msg := if msg ≠ "" then MSG_OPTIONAL_PLUGS ++ "\n" ++ msg else msg
  let requiredMsg := appendDisconnected state.RequiredPlugs ""
  let msg := if requiredMsg ≠ "" then msg ++ "\n" ++ MSG_REQUIRED_PLUGS ++ "\n" ++ requiredMsg
    else msg
  let msg := if msg ≠ "" then msg ++ "\n\n" else msg
  msg

/-- A successful `os.Create` of a marker file: the marker exists afterwards. -/
def FlagStore.created (flags : FlagStore) (f : File) : FlagStore :=
  match f with
  | .alreadyWarned => { flags with alreadyWarned := .found }
  | .warningsDisabled => { flags with warningsDisabled := .found }
  | _ => flags

/-- The loop of `setWarnFlags`, `for _, plug := range state.RequiredPlugs`:
whether it meets a plug that is not connected (and returns). -/
def anyDisconnected : PlugMap → Bool
  | [] => false
  | (_, plug) :: rest => if !plug.Connected then true else anyDisconnected rest

/-- What `setWarnFlags` leaves: the flag store after the call, the returned
error and the trace of its system calls. -/
structure SetResult where
  flags : FlagStore
  err : Option Error
  trace : List Event
deriving DecidableEq, Repr

/-- `setWarnFlags`. -/
def setWarnFlags (flags : FlagStore) (createErr : File → Option Error)
    (state : warningState) : SetResult :=
  -- If we have warned the user then this is our first time doing so. Set the flag
  let first : SetResult :=
    if !state.AlreadyWarned then
      match createErr File.alreadyWarned with
      | some e => ⟨flags, some e, [Event.create File.alreadyWarned]⟩
      | none => ⟨flags.created File.alreadyWarned, none, [Event.create File.alreadyWarned]⟩
    else ⟨flags, none, []⟩
  match first.err with
  | some e => ⟨first.flags, some e, first.trace⟩
  | none =>
  -- warnings are disabled no flags left to set.
  if state.WarningsDisabled then ⟨first.flags, none, first.trace⟩ else
  -- Check if any required connections are still disconnected
  if anyDisconnected state.RequiredPlugs then ⟨first.flags, none, first.trace⟩ else
  -- ALL required plugs are connected, we can now disable warnings
  match createErr File.warningsDisabled with
  | some e => ⟨first.flags, some e, first.trace ++ [Event.create File.warningsDisabled]⟩
  | none =>
    ⟨first.flags.created File.warningsDisabled, none,
      first.trace ++ [Event.create File.warningsDisabled]⟩

/-- What one run of the check leaves behind. -/
structure RunResult where
  state : warningState
  msg : String
  flags : FlagStore
  trace : List Event
deriving DecidableEq, Repr

/-- The check of `main` (lines 56 to 64): `gatherState`, whose error is
ignored, then `getWarnMessage` printed to stderr, then `setWarnFlags` on the
state that `gatherState` returned. -/
def runCheck (flags : FlagStore) (env : Env) : RunResult :=
  let g := gatherState flags env
  let msg := getWarnMessage g.state
  let s := setWarnFlags flags env.createErr g.state
  ⟨g.state, msg, s.flags, g.trace ++ s.trace⟩

/-- A sequence of runs, each starting from the flag store the previous one
left, each with its own environment. -/
def runAll : FlagStore → List Env → FlagStore
  | flags, [] => flags
  | flags, env :: rest => runAll (runCheck flags env).flags rest

/-- The trace of `gatherState` up to the connection loops, when neither
`os.Stat` nor the loading of the two files failed. -/
def loadTrace (plugsYamlExists warned : Bool) : List Event :=
  let trace := [Event.stat File.warningsDisabled] ++ [Event.stat File.alreadyWarned] ++
    [Event.stat File.plugsYaml]
  let trace := if plugsYamlExists then trace ++ [Event.openFile File.plugsYaml] else trace
  if !warned then trace ++ [Event.openFile File.snapYaml] else trace

/-! ## The sets the claims speak of -/

/-- The declarations that `gatherState` loads from `plugs.yaml`: the decoded
map when `os.Stat` finds the file, nothing otherwise. -/
def declaredPlugs (env : Env) : PlugMap :=
  match env.plugsYamlStat, env.plugsYaml with
  | FileStatus.found, PlugsYamlFile.decoded plugs _ => plugs
  | _, _ => []

/-- The plug names that the entry points (`apps`) of a manifest reference. -/
def manifestPlugs : List (String × List String) → List String
  | [] => []
  | app :: rest => app.2 ++ manifestPlugs rest

/-- The plug names referenced by the manifest of the environment. -/
def manifestNames (env : Env) : List String :=
  match env.snapYaml with
  | SnapYamlFile.decoded snap _ => manifestPlugs snap.Apps
  | SnapYamlFile.openFails _ => []

/-! ## Concrete scenarios -/

/-- The oracle of scenario A: `home` is connected, nothing else is. -/
def snapctlA : String → CmdResult :=
  fun plugName => if plugName = "home" then CmdResult.success else CmdResult.exitError

/-- The declarations of scenarios A and B. -/
def plugsAB : PlugMap :=
  [("net", { Required := true, Reason := "needed for sync", Connected := false }),
   ("home", { Required := false, Reason := "save files", Connected := false })]

/-- Scenario A: `net` required and not connected, `home` optional and
connected; marker creation succeeds. -/
def envA : Env where
  plugsYamlStat := FileStatus.found
  plugsYaml := PlugsYamlFile.decoded plugsAB none
  snapYaml := SnapYamlFile.decoded ⟨[("app", ["net", "home"])]⟩ none
  snapctl := snapctlA
  createErr := fun _ => none

/-- Scenario B: the declarations of scenario A, every plug connected. -/
def envB : Env where
  plugsYamlStat := FileStatus.found
  plugsYaml := PlugsYamlFile.decoded plugsAB none
  snapYaml := SnapYamlFile.decoded ⟨[("app", ["net", "home"])]⟩ none
  snapctl := fun _ => CmdResult.success
  createErr := fun _ => none

/-- Scenario D: no `plugs.yaml`, the manifest references `camera` (and `net`
twice), nothing is connected. -/
def envD : Env where
  plugsYamlStat := FileStatus.notExist
  plugsYaml := PlugsYamlFile.openFails "open plugs.yaml: no such file or directory"
  snapYaml := SnapYamlFile.decoded ⟨[("app", ["camera", "net"]), ("daemon", ["net"])]⟩ none
  snapctl := fun _ => CmdResult.exitError
  createErr := fun _ => none

/-- A manifest that references both declared plugs and `camera`. -/
def envE : Env where
  plugsYamlStat := FileStatus.found
  plugsYaml := PlugsYamlFile.decoded plugsAB none
  snapYaml := SnapYamlFile.decoded ⟨[("app", ["net", "home", "camera"])]⟩ none
  snapctl := snapctlA
  createErr := fun _ => none

/-- Both markers absent. -/
def freshFlags : FlagStore := ⟨FileStatus.notExist, FileStatus.notExist⟩

/-- The optional section of the message: the value of `msg` in
`getWarnMessage` once the header of the optional plugs has been put in front of
the lines of the first loop (line 104 of `check.go`). -/
def optionalSection (state : warningState) : String :=
  let msg := ""
  let msg := if !state.AlreadyWarned then appendDisconnected state.OptionalPlugs msg else msg
  if msg ≠ "" then MSG_OPTIONAL_PLUGS ++ "\n" ++ msg else msg

/-- The snapshot without its connected entries. -/
def dropConnected (state : warningState) : warningState :=
  { state with
    OptionalPlugs := state.OptionalPlugs.filter fun e => !e.2.Connected
    RequiredPlugs := state.RequiredPlugs.filter fun e => !e.2.Connected }

/-- The message built from required plugs alone: `getWarnMessage` of a
snapshot that holds nothing but them. -/
def requiredOnlyMessage (requiredPlugs : PlugMap) : String :=
  getWarnMessage
    { WarningsDisabled := false, AlreadyWarned := false,
      OptionalPlugs := [], RequiredPlugs := requiredPlugs }

/-- The declarations of scenario A in an environment where `snapctl` cannot be
run at all. -/
def envOracleFails : Env where
  plugsYamlStat := FileStatus.found
  plugsYaml := PlugsYamlFile.decoded plugsAB none
  snapYaml := SnapYamlFile.decoded ⟨[("app", ["net", "home"])]⟩ none
  snapctl := fun _ => CmdResult.otherError "exec: snapctl: executable file not found"
  createErr := fun _ => none

/-- Scenario B in an environment where no marker file can be created. -/
def envCreateFails : Env where
  plugsYamlStat := FileStatus.found
  plugsYaml := PlugsYamlFile.decoded plugsAB none
  snapYaml := SnapYamlFile.decoded ⟨[("app", ["net", "home"])]⟩ none
  snapctl := fun _ => CmdResult.success
  createErr := fun _ => some "open: permission denied"

/-- What `gatherState` has loaded as `requiredPlugs` when it enters its
connection loops: the required part of `plugs.yaml` if the file is there. -/
def loadedRequired (env : Env) : PlugMap :=
  if (checkFileFlag env.plugsYamlStat).1 then (loadPlugsYaml env.plugsYaml).1 else []

/-- What `gatherState` has loaded as `optionalPlugs` when it enters its
connection loops: nothing when the user was already warned, else the optional
part of `plugs.yaml` extended by `loadFromSnapYaml`. -/
def loadedOptional (flags : FlagStore) (env : Env) : PlugMap :=
  if (checkFileFlag flags.alreadyWarned).1 then [] else
    (loadFromSnapYaml
      (if (checkFileFlag env.plugsYamlStat).1 then (loadPlugsYaml env.plugsYaml).2.1 else [])
      env.snapYaml).1

/-- Containment of a text in a string: `sub` occurs somewhere in `s`. -/
def containsText (s sub : String) : Prop := ∃ pre post, s = pre ++ sub ++ post

/-- A `plugs.yaml` whose only plug, required and not connected, has a reason
that spells out the header line of the optional plugs. -/
def envHeaderInReason : Env where
  plugsYamlStat := FileStatus.found
  plugsYaml := PlugsYamlFile.decoded
    [("net", { Required := true, Reason := "see below\n" ++ MSG_OPTIONAL_PLUGS,
               Connected := false })] none
  snapYaml := SnapYamlFile.decoded ⟨[("app", ["net"])]⟩ none
  snapctl := fun _ => CmdResult.exitError
  createErr := fun _ => none

/-- The shape of the texts whose occurrences in a message can be located: a first character that
is neither a tab, a newline, a hyphen nor a blank, and no tab and no newline
anywhere. The header of the optional plugs is one. -/
def headerLike (p : List Char) : Prop :=
  ∃ c0 rest, p = c0 :: rest ∧ c0 ≠ '-' ∧ c0 ≠ ' ' ∧ '\t' ∉ p ∧ '\n' ∉ p

/-! ## Lemmas on maps -/

namespace PlugMap

theorem mem_keys_iff (m : PlugMap) (n : String) : n ∈ keys m ↔ ∃ v, (n, v) ∈ m := by
  simp [keys]

theorem mem_of_get? (m : PlugMap) (n : String) (v : PlugStatus) (h : get? m n = some v) :
    (n, v) ∈ m := by
  induction m with
  | nil => simp [get?] at h
  | cons e rest ih =>
    obtain ⟨k, w⟩ := e
    simp only [get?] at h
    split at h
    · rename_i hk
      cases hk
      simp only [Option.some.injEq] at h
      simp [h]
    · exact List.mem_cons_of_mem _ (ih h)

theorem get?_isSome_iff (m : PlugMap) (n : String) : (get? m n).isSome = true ↔ n ∈ keys m := by
  induction m with
  | nil => simp [get?, keys]
  | cons e rest ih =>
    obtain ⟨k, w⟩ := e
    simp only [get?, keys, List.map_cons, List.mem_cons]
    by_cases hk : k = n
    · simp [hk]
    · simp only [hk, if_false]
      rw [ih]
      constructor
      · intro h; exact Or.inr h
      · rintro (h | h)
        · exact absurd h.symm hk
        · exact h

theorem contains_iff (m : PlugMap) (n : String) : contains m n = true ↔ n ∈ keys m := by
  simp [contains, get?_isSome_iff]

theorem mem_set (m : PlugMap) (k : String) (v : PlugStatus) (e : String × PlugStatus)
    (h : e ∈ set m k v) : e = (k, v) ∨ e ∈ m := by
  induction m with
  | nil => simpa [set] using h
  | cons a rest ih =>
    obtain ⟨k', w⟩ := a
    simp only [set] at h
    split at h
    · rcases List.mem_cons.mp h with h | h
      · exact Or.inl h
      · exact Or.inr (List.mem_cons_of_mem _ h)
    · rcases List.mem_cons.mp h with h | h
      · exact Or.inr (h ▸ List.mem_cons_self _ _)
      · rcases ih h with h | h
        · exact Or.inl h
        · exact Or.inr (List.mem_cons_of_mem _ h)

theorem mem_keys_set (m : PlugMap) (k : String) (v : PlugStatus) (n : String) :
    n ∈ keys (set m k v) ↔ n = k ∨ n ∈ keys m := by
  induction m with
  | nil => simp [set, keys]
  | cons a rest ih =>
    obtain ⟨k', w⟩ := a
    simp only [set]
    split
    · rename_i hk
      subst hk
      simp [keys]
    · simp only [keys, List.map_cons, List.mem_cons] at ih ⊢
      rw [ih]
      tauto

theorem mem_delete (m : PlugMap) (k : String) (e : String × PlugStatus) :
    e ∈ delete m k ↔ e ∈ m ∧ e.1 ≠ k := by
  simp [delete]

theorem mem_keys_delete (m : PlugMap) (k : String) (n : String) :
    n ∈ keys (delete m k) ↔ n ∈ keys m ∧ n ≠ k := by
  simp only [mem_keys_iff, mem_delete]
  constructor
  · rintro ⟨v, hv, hne⟩
    exact ⟨⟨v, hv⟩, hne⟩
  · rintro ⟨⟨v, hv⟩, hne⟩
    exact ⟨v, hv, hne⟩

end PlugMap


/-! ## Lemmas on the loading loops -/

theorem partitionPlugs_keys_required (plugs requiredPlugs optionalPlugs : PlugMap) (n : String) :
    n ∈ PlugMap.keys (partitionPlugs plugs requiredPlugs optionalPlugs).1 ↔
      n ∈ PlugMap.keys requiredPlugs ∨ ∃ p, (n, p) ∈ plugs ∧ p.Required = true := by
  induction plugs generalizing requiredPlugs optionalPlugs with
  | nil => simp [partitionPlugs]
  | cons e rest ih =>
    obtain ⟨k, w⟩ := e
    simp only [partitionPlugs]
    split
    · rename_i hw
      rw [ih, PlugMap.mem_keys_set]
      constructor
      · rintro ((h | h) | ⟨p, hp, hr⟩)
        · exact Or.inr ⟨w, by simp [h], hw⟩
        · exact Or.inl h
        · exact Or.inr ⟨p, List.mem_cons_of_mem _ hp, hr⟩
      · rintro (h | ⟨p, hp, hr⟩)
        · exact Or.inl (Or.inr h)
        · rcases List.mem_cons.mp hp with h | h
          · exact Or.inl (Or.inl (congrArg Prod.fst h))
          · exact Or.inr ⟨p, h, hr⟩
    · rename_i hw
      rw [ih]
      constructor
      · rintro (h | ⟨p, hp, hr⟩)
        · exact Or.inl h
        · exact Or.inr ⟨p, List.mem_cons_of_mem _ hp, hr⟩
      · rintro (h | ⟨p, hp, hr⟩)
        · exact Or.inl h
        · rcases List.mem_cons.mp hp with h | h
          · have hp2 : p = w := congrArg Prod.snd h
            exact absurd (hp2 ▸ hr) hw
          · exact Or.inr ⟨p, h, hr⟩

theorem partitionPlugs_keys_optional (plugs requiredPlugs optionalPlugs : PlugMap) (n : String) :
    n ∈ PlugMap.keys (partitionPlugs plugs requiredPlugs optionalPlugs).2 ↔
      n ∈ PlugMap.keys optionalPlugs ∨ ∃ p, (n, p) ∈ plugs ∧ p.Required = false := by
  induction plugs generalizing requiredPlugs optionalPlugs with
  | nil => simp [partitionPlugs]
  | cons e rest ih =>
    obtain ⟨k, w⟩ := e
    simp only [partitionPlugs]
    split
    · rename_i hw
      rw [ih]
      constructor
      · rintro (h | ⟨p, hp, hr⟩)
        · exact Or.inl h
        · exact Or.inr ⟨p, List.mem_cons_of_mem _ hp, hr⟩
      · rintro (h | ⟨p, hp, hr⟩)
        · exact Or.inl h
        · rcases List.mem_cons.mp hp with h | h
          · have hp2 : p = w := congrArg Prod.snd h
            rw [hp2, hw] at hr
            exact absurd hr (by decide)
          · exact Or.inr ⟨p, h, hr⟩
    · rename_i hw
      rw [ih, PlugMap.mem_keys_set]
      constructor
      · rintro ((h | h) | ⟨p, hp, hr⟩)
        · exact Or.inr ⟨w, by simp [h], by simpa using hw⟩
        · exact Or.inl h
        · exact Or.inr ⟨p, List.mem_cons_of_mem _ hp, hr⟩
      · rintro (h | ⟨p, hp, hr⟩)
        · exact Or.inl (Or.inr h)
        · rcases List.mem_cons.mp hp with h | h
          · exact Or.inl (Or.inl (congrArg Prod.fst h))
          · exact Or.inr ⟨p, h, hr⟩

theorem partitionPlugs_mem_optional (plugs requiredPlugs optionalPlugs : PlugMap)
    (e : String × PlugStatus) (h : e ∈ (partitionPlugs plugs requiredPlugs optionalPlugs).2) :
    e ∈ optionalPlugs ∨ e ∈ plugs := by
  induction plugs generalizing requiredPlugs optionalPlugs with
  | nil => exact Or.inl (by simpa [partitionPlugs] using h)
  | cons a rest ih =>
    obtain ⟨k, w⟩ := a
    simp only [partitionPlugs] at h
    split at h
    · rcases ih _ _ h with h | h
      · exact Or.inl h
      · exact Or.inr (List.mem_cons_of_mem _ h)
    · rcases ih _ _ h with h | h
      · rcases PlugMap.mem_set _ _ _ _ h with h | h
        · exact Or.inr (h ▸ List.mem_cons_self _ _)
        · exact Or.inl h
      · exact Or.inr (List.mem_cons_of_mem _ h)

theorem partitionPlugs_mem_required (plugs requiredPlugs optionalPlugs : PlugMap)
    (e : String × PlugStatus) (h : e ∈ (partitionPlugs plugs requiredPlugs optionalPlugs).1) :
    e ∈ requiredPlugs ∨ e ∈ plugs := by
  induction plugs generalizing requiredPlugs optionalPlugs with
  | nil => exact Or.inl (by simpa [partitionPlugs] using h)
  | cons a rest ih =>
    obtain ⟨k, w⟩ := a
    simp only [partitionPlugs] at h
    split at h
    · rcases ih _ _ h with h | h
      · rcases PlugMap.mem_set _ _ _ _ h with h | h
        · exact Or.inr (h ▸ List.mem_cons_self _ _)
        · exact Or.inl h
      · exact Or.inr (List.mem_cons_of_mem _ h)
    · rcases ih _ _ h with h | h
      · exact Or.inl h
      · exact Or.inr (List.mem_cons_of_mem _ h)

theorem addAppPlugs_keys (names : List String) (plugs : PlugMap) (n : String) :
    n ∈ PlugMap.keys (addAppPlugs names plugs) ↔ n ∈ PlugMap.keys plugs ∨ n ∈ names := by
  induction names generalizing plugs with
  | nil => simp [addAppPlugs]
  | cons a rest ih =>
    simp only [addAppPlugs]
    split
    · rename_i hc
      rw [ih]
      have ha : a ∈ PlugMap.keys plugs := (PlugMap.contains_iff plugs a).mp hc
      constructor
      · rintro (h | h)
        · exact Or.inl h
        · exact Or.inr (List.mem_cons_of_mem _ h)
      · rintro (h | h)
        · exact Or.inl h
        · rcases List.mem_cons.mp h with h | h
          · exact Or.inl (h ▸ ha)
          · exact Or.inr h
    · rw [ih, PlugMap.mem_keys_set]
      simp only [List.mem_cons]
      tauto

theorem addAppPlugs_mem (names : List String) (plugs : PlugMap) (e : String × PlugStatus)
    (h : e ∈ addAppPlugs names plugs) :
    e ∈ plugs ∨ (e.2 = { Required := false, Reason := "", Connected := false } ∧
      e.1 ∈ names ∧ e.1 ∉ PlugMap.keys plugs) := by
  induction names generalizing plugs with
  | nil => exact Or.inl (by simpa [addAppPlugs] using h)
  | cons a rest ih =>
    simp only [addAppPlugs] at h
    split at h
    · rcases ih _ h with h | ⟨h1, h2, h3⟩
      · exact Or.inl h
      · exact Or.inr ⟨h1, List.mem_cons_of_mem _ h2, h3⟩
    · rename_i hc
      have ha : a ∉ PlugMap.keys plugs := fun hx => hc ((PlugMap.contains_iff plugs a).mpr hx)
      rcases ih _ h with h | ⟨h1, h2, h3⟩
      · rcases PlugMap.mem_set _ _ _ _ h with h | h
        · refine Or.inr ⟨by rw [h], by rw [h]; exact List.mem_cons_self _ _, by rw [h]; exact ha⟩
        · exact Or.inl h
      · refine Or.inr ⟨h1, List.mem_cons_of_mem _ h2, ?_⟩
        intro hx
        exact h3 ((PlugMap.mem_keys_set _ _ _ _).mpr (Or.inr hx))

theorem addSnapPlugs_keys (apps : List (String × List String)) (plugs : PlugMap) (n : String) :
    n ∈ PlugMap.keys (addSnapPlugs apps plugs) ↔
      n ∈ PlugMap.keys plugs ∨ ∃ app, app ∈ apps ∧ n ∈ app.2 := by
  induction apps generalizing plugs with
  | nil => simp [addSnapPlugs]
  | cons a rest ih =>
    simp only [addSnapPlugs]
    rw [ih, addAppPlugs_keys]
    constructor
    · rintro ((h | h) | ⟨app, h1, h2⟩)
      · exact Or.inl h
      · exact Or.inr ⟨a, List.mem_cons_self _ _, h⟩
      · exact Or.inr ⟨app, List.mem_cons_of_mem _ h1, h2⟩
    · rintro (h | ⟨app, h1, h2⟩)
      · exact Or.inl (Or.inl h)
      · rcases List.mem_cons.mp h1 with h | h
        · exact Or.inl (Or.inr (h ▸ h2))
        · exact Or.inr ⟨app, h, h2⟩

theorem addSnapPlugs_mem (apps : List (String × List String)) (plugs : PlugMap)
    (e : String × PlugStatus) (h : e ∈ addSnapPlugs apps plugs) :
    e ∈ plugs ∨ (e.2 = { Required := false, Reason := "", Connected := false } ∧
      e.1 ∉ PlugMap.keys plugs) := by
  induction apps generalizing plugs with
  | nil => exact Or.inl (by simpa [addSnapPlugs] using h)
  | cons a rest ih =>
    simp only [addSnapPlugs] at h
    rcases ih _ h with h | ⟨h1, h2⟩
    · rcases addAppPlugs_mem _ _ _ h with h | ⟨h1, _, h3⟩
      · exact Or.inl h
      · exact Or.inr ⟨h1, h3⟩
    · refine Or.inr ⟨h1, fun hx => h2 ((addAppPlugs_keys _ _ _).mpr (Or.inl hx))⟩


/-! ## Lemmas on the connection loops -/

theorem checkRequired_trace (snapctl : String → CmdResult) (es requiredPlugs optionalPlugs : PlugMap)
    (trace : List Event) (ev : Event)
    (h : ev ∈ (checkRequired snapctl es requiredPlugs optionalPlugs trace).2.2.2) :
    ev ∈ trace ∨ ev.isQuery = true := by
  induction es generalizing requiredPlugs optionalPlugs trace with
  | nil => exact Or.inl (by simpa [checkRequired] using h)
  | cons a rest ih =>
    obtain ⟨k, w⟩ := a
    simp only [checkRequired] at h
    split at h
    · rcases List.mem_append.mp h with h | h
      · exact Or.inl h
      · refine Or.inr ?_
        rw [List.mem_singleton.mp h]
        rfl
    · rcases ih _ _ _ h with h | h
      · rcases List.mem_append.mp h with h | h
        · exact Or.inl h
        · refine Or.inr ?_
          rw [List.mem_singleton.mp h]
          rfl
      · exact Or.inr h

theorem checkOptional_trace (snapctl : String → CmdResult) (es optionalPlugs : PlugMap)
    (trace : List Event) (ev : Event)
    (h : ev ∈ (checkOptional snapctl es optionalPlugs trace).2.2) :
    ev ∈ trace ∨ ev.isQuery = true := by
  induction es generalizing optionalPlugs trace with
  | nil => exact Or.inl (by simpa [checkOptional] using h)
  | cons a rest ih =>
    obtain ⟨k, w⟩ := a
    simp only [checkOptional] at h
    split at h
    · rcases List.mem_append.mp h with h | h
      · exact Or.inl h
      · refine Or.inr ?_
        rw [List.mem_singleton.mp h]
        rfl
    · rcases ih _ _ h with h | h
      · rcases List.mem_append.mp h with h | h
        · exact Or.inl h
        · refine Or.inr ?_
          rw [List.mem_singleton.mp h]
          rfl
      · exact Or.inr h

theorem checkRequired_optional_mem (snapctl : String → CmdResult)
    (es requiredPlugs optionalPlugs : PlugMap) (trace : List Event) (e : String × PlugStatus)
    (h : e ∈ (checkRequired snapctl es requiredPlugs optionalPlugs trace).2.1) :
    e ∈ optionalPlugs := by
  induction es generalizing requiredPlugs optionalPlugs trace with
  | nil => simpa [checkRequired] using h
  | cons a rest ih =>
    obtain ⟨k, w⟩ := a
    simp only [checkRequired] at h
    split at h
    · exact h
    · exact ((PlugMap.mem_delete _ _ _).mp (ih _ _ _ h)).1

theorem checkRequired_optional_keys (snapctl : String → CmdResult)
    (es requiredPlugs optionalPlugs : PlugMap) (trace : List Event)
    (h : (checkRequired snapctl es requiredPlugs optionalPlugs trace).2.2.1 = none) (n : String) :
    n ∈ PlugMap.keys (checkRequired snapctl es requiredPlugs optionalPlugs trace).2.1 ↔
      n ∈ PlugMap.keys optionalPlugs ∧ n ∉ PlugMap.keys es := by
  induction es generalizing requiredPlugs optionalPlugs trace with
  | nil => simp [checkRequired, PlugMap.keys]
  | cons a rest ih =>
    obtain ⟨k, w⟩ := a
    simp only [checkRequired] at h ⊢
    split at h
    · simp at h
    · rename_i c hc
      rw [ih _ _ _ h, PlugMap.mem_keys_delete]
      simp only [PlugMap.keys, List.map_cons, List.mem_cons]
      tauto

theorem checkRequired_required_keys (snapctl : String → CmdResult)
    (es requiredPlugs optionalPlugs : PlugMap) (trace : List Event)
    (h : (checkRequired snapctl es requiredPlugs optionalPlugs trace).2.2.1 = none) (n : String) :
    n ∈ PlugMap.keys (checkRequired snapctl es requiredPlugs optionalPlugs trace).1 ↔
      n ∈ PlugMap.keys requiredPlugs ∨ n ∈ PlugMap.keys es := by
  induction es generalizing requiredPlugs optionalPlugs trace with
  | nil => simp [checkRequired, PlugMap.keys]
  | cons a rest ih =>
    obtain ⟨k, w⟩ := a
    simp only [checkRequired] at h ⊢
    split at h
    · simp at h
    · rename_i c hc
      rw [ih _ _ _ h, PlugMap.mem_keys_set]
      simp only [PlugMap.keys, List.map_cons, List.mem_cons]
      tauto

theorem checkOptional_keys (snapctl : String → CmdResult)
    (es optionalPlugs : PlugMap) (trace : List Event)
    (h : (checkOptional snapctl es optionalPlugs trace).2.1 = none) (n : String) :
    n ∈ PlugMap.keys (checkOptional snapctl es optionalPlugs trace).1 ↔
      n ∈ PlugMap.keys optionalPlugs ∨ n ∈ PlugMap.keys es := by
  induction es generalizing optionalPlugs trace with
  | nil => simp [checkOptional, PlugMap.keys]
  | cons a rest ih =>
    obtain ⟨k, w⟩ := a
    simp only [checkOptional] at h ⊢
    split at h
    · simp at h
    · rename_i c hc
      rw [ih _ _ h, PlugMap.mem_keys_set]
      simp only [PlugMap.keys, List.map_cons, List.mem_cons]
      tauto

/-- Every entry the second connection loop leaves carries the `Required` and
`Reason` of an entry of the same name that was there before the loop. -/
theorem checkOptional_mem (snapctl : String → CmdResult)
    (es optionalPlugs : PlugMap) (trace : List Event) (e : String × PlugStatus)
    (h : e ∈ (checkOptional snapctl es optionalPlugs trace).1) :
    ∃ q, q.Required = e.2.Required ∧ q.Reason = e.2.Reason ∧
      ((e.1, q) ∈ optionalPlugs ∨ (e.1, q) ∈ es) := by
  induction es generalizing optionalPlugs trace with
  | nil => exact ⟨e.2, rfl, rfl, Or.inl (by simpa [checkOptional] using h)⟩
  | cons a rest ih =>
    obtain ⟨k, w⟩ := a
    simp only [checkOptional] at h
    split at h
    · exact ⟨e.2, rfl, rfl, Or.inl h⟩
    · obtain ⟨q, h1, h2, h3⟩ := ih _ _ h
      rcases h3 with h3 | h3
      · rcases PlugMap.mem_set _ _ _ _ h3 with h4 | h4
        · have hk : e.1 = k := congrArg Prod.fst h4
          have hq : q = { w with Connected := _ } := congrArg Prod.snd h4
          refine ⟨w, ?_, ?_, Or.inr (hk ▸ List.mem_cons_self _ _)⟩
          · rw [← h1, hq]
          · rw [← h2, hq]
        · exact ⟨q, h1, h2, Or.inl h4⟩
      · exact ⟨q, h1, h2, Or.inr (List.mem_cons_of_mem _ h3)⟩


/-! ## The shape of what `gatherState` returns -/

theorem gatherState_disabled (flags : FlagStore) (env : Env)
    (h : flags.warningsDisabled = FileStatus.found) :
    gatherState flags env =
      ⟨{ warningState.zero with WarningsDisabled := true }, none,
        [Event.stat File.warningsDisabled]⟩ := by
  simp [gatherState, h, checkFileFlag]

theorem gatherState_statFailure (flags : FlagStore) (env : Env) (e : Error)
    (h : flags.warningsDisabled = FileStatus.failure e) :
    gatherState flags env = ⟨warningState.zero, some e, [Event.stat File.warningsDisabled]⟩ := by
  simp [gatherState, h, checkFileFlag]

theorem gatherState_ok (flags : FlagStore) (env : Env)
    (hd : flags.warningsDisabled = FileStatus.notExist)
    (h : (gatherState flags env).err = none) :
    ∃ warned plugsYamlExists requiredPlugs optionalPlugs optionalPlugs2
      requiredPlugs3 optionalPlugs3 trace3 optionalPlugs4 trace4,
      checkFileFlag flags.alreadyWarned = (warned, none) ∧
      checkFileFlag env.plugsYamlStat = (plugsYamlExists, none) ∧
      (if plugsYamlExists then loadPlugsYaml env.plugsYaml else ([], [], none))
        = (requiredPlugs, optionalPlugs, none) ∧
      (if !warned then loadFromSnapYaml (if warned then [] else optionalPlugs) env.snapYaml
        else ((if warned then [] else optionalPlugs), none)) = (optionalPlugs2, none) ∧
      checkRequired env.snapctl requiredPlugs requiredPlugs optionalPlugs2
        (loadTrace plugsYamlExists warned) = (requiredPlugs3, optionalPlugs3, none, trace3) ∧
      checkOptional env.snapctl optionalPlugs3 optionalPlugs3 trace3
        = (optionalPlugs4, none, trace4) ∧
      gatherState flags env = ⟨⟨false, warned, optionalPlugs4, requiredPlugs3⟩, none, trace4⟩ := by
  have h0 : checkFileFlag FileStatus.notExist = (false, none) := rfl
  unfold gatherState at h ⊢
  rw [hd] at h ⊢
  simp only [h0, Bool.false_eq_true, if_false] at h ⊢
  rcases hW : checkFileFlag flags.alreadyWarned with ⟨warned, _ | e⟩
  swap
  · simp only [hW] at h
    exact absurd h (by simp)
  rcases hP : checkFileFlag env.plugsYamlStat with ⟨plugsYamlExists, _ | e⟩
  swap
  · simp only [hW, hP] at h
    exact absurd h (by simp)
  rcases hL : (if plugsYamlExists then loadPlugsYaml env.plugsYaml else ([], [], none))
    with ⟨requiredPlugs, optionalPlugs, _ | e⟩
  swap
  · simp only [hW, hP, hL] at h
    exact absurd h (by simp)
  rcases hS : (if !warned then loadFromSnapYaml (if warned then [] else optionalPlugs)
      env.snapYaml else ((if warned then [] else optionalPlugs), none))
    with ⟨optionalPlugs2, _ | e⟩
  swap
  · simp only [hW, hP, hL, hS] at h
    exact absurd h (by simp)
  rcases hR : checkRequired env.snapctl requiredPlugs requiredPlugs optionalPlugs2
      (loadTrace plugsYamlExists warned) with ⟨requiredPlugs3, optionalPlugs3, _ | e, trace3⟩
  swap
  · simp only [loadTrace] at hR
    simp only [hW, hP, hL, hS, hR] at h
    exact absurd h (by simp)
  rcases hO : checkOptional env.snapctl optionalPlugs3 optionalPlugs3 trace3
    with ⟨optionalPlugs4, _ | e, trace4⟩
  swap
  · simp only [loadTrace] at hR
    simp only [hW, hP, hL, hS, hR, hO] at h
    exact absurd h (by simp)
  refine ⟨warned, plugsYamlExists, requiredPlugs, optionalPlugs, optionalPlugs2,
    requiredPlugs3, optionalPlugs3, trace3, optionalPlugs4, trace4, rfl, rfl, hL, hS, hR, hO, ?_⟩
  simp only [loadTrace] at hR
  simp only [hL, hS, hR, hO]


theorem gatherState_failed (flags : FlagStore) (env : Env) (e : Error)
    (h : (gatherState flags env).err = some e) :
    (gatherState flags env).state.OptionalPlugs = [] ∧
      (gatherState flags env).state.RequiredPlugs = [] ∧
      (gatherState flags env).state.WarningsDisabled = false := by
  unfold gatherState at h ⊢
  simp only [] at h ⊢
  repeat' split
  all_goals simp_all [warningState.zero]

theorem gatherState_alreadyWarned (flags : FlagStore) (env : Env)
    (h : (gatherState flags env).state.AlreadyWarned = true) :
    flags.alreadyWarned = FileStatus.found := by
  unfold gatherState at h
  simp only [] at h
  cases hA : flags.alreadyWarned
  · rfl
  · exfalso
    rw [hA] at h
    repeat' split at h
    all_goals simp_all [warningState.zero, checkFileFlag]
  · exfalso
    rw [hA] at h
    repeat' split at h
    all_goals simp_all [warningState.zero, checkFileFlag]


theorem mem_loadTrace (plugsYamlExists warned : Bool) (ev : Event)
    (h : ev ∈ loadTrace plugsYamlExists warned) :
    ev ∈ [Event.stat File.warningsDisabled, Event.stat File.alreadyWarned,
        Event.stat File.plugsYaml, Event.openFile File.plugsYaml] ∨
      (ev = Event.openFile File.snapYaml ∧ warned = false) := by
  cases plugsYamlExists <;> cases warned <;> simp [loadTrace] at h ⊢ <;> tauto

/-- Every system call of `gatherState` is an oracle query, one of the three
`os.Stat` calls, the loading of `plugs.yaml`, or the loading of
`meta/snap.yaml`; the last only when both markers are absent. -/
theorem gatherState_trace (flags : FlagStore) (env : Env) (ev : Event)
    (h : ev ∈ (gatherState flags env).trace) :
    ev.isQuery = true ∨
      ev ∈ [Event.stat File.warningsDisabled, Event.stat File.alreadyWarned,
        Event.stat File.plugsYaml, Event.openFile File.plugsYaml] ∨
      (ev = Event.openFile File.snapYaml ∧ flags.warningsDisabled = FileStatus.notExist ∧
        flags.alreadyWarned = FileStatus.notExist) := by
  cases hd : flags.warningsDisabled with
  | found =>
    rw [gatherState_disabled flags env hd] at h
    simp at h
    simp [h]
  | failure e =>
    rw [gatherState_statFailure flags env e hd] at h
    simp at h
    simp [h]
  | notExist =>
    have h0 : checkFileFlag FileStatus.notExist = (false, none) := rfl
    unfold gatherState at h
    rw [hd] at h
    simp only [h0, Bool.false_eq_true, if_false] at h
    rcases hW : checkFileFlag flags.alreadyWarned with ⟨warned, _ | e⟩
    swap
    · simp only [hW] at h
      simp at h
      rcases h with h | h <;> simp [h]
    rcases hP : checkFileFlag env.plugsYamlStat with ⟨plugsYamlExists, _ | e⟩
    swap
    · simp only [hW, hP] at h
      simp at h
      rcases h with h | h | h <;> simp [h]
    have hwarned : warned = false → flags.alreadyWarned = FileStatus.notExist := by
      intro hw
      cases hA : flags.alreadyWarned <;> simp [hA, checkFileFlag, hw] at hW
      rfl
    have key : ev ∈ loadTrace plugsYamlExists warned ∨ ev.isQuery = true → _ := fun hx =>
      show ev.isQuery = true ∨
        ev ∈ [Event.stat File.warningsDisabled, Event.stat File.alreadyWarned,
          Event.stat File.plugsYaml, Event.openFile File.plugsYaml] ∨
        (ev = Event.openFile File.snapYaml ∧ FileStatus.notExist = FileStatus.notExist ∧
          flags.alreadyWarned = FileStatus.notExist) from by
        rcases hx with hx | hx
        · rcases mem_loadTrace _ _ _ hx with hx | ⟨hx, hw⟩
          · exact Or.inr (Or.inl hx)
          · exact Or.inr (Or.inr ⟨hx, rfl, hwarned hw⟩)
        · exact Or.inl hx
    rcases hL : (if plugsYamlExists then loadPlugsYaml env.plugsYaml else ([], [], none))
      with ⟨requiredPlugs, optionalPlugs, _ | e⟩
    swap
    · simp only [hW, hP, hL] at h
      refine key (Or.inl ?_)
      cases plugsYamlExists <;> cases warned <;> simp [loadTrace] at h ⊢ <;> tauto
    rcases hS : (if !warned then loadFromSnapYaml (if warned then [] else optionalPlugs)
        env.snapYaml else ((if warned then [] else optionalPlugs), none))
      with ⟨optionalPlugs2, _ | e⟩
    swap
    · simp only [hW, hP, hL, hS] at h
      exact key (Or.inl h)
    rcases hR : checkRequired env.snapctl requiredPlugs requiredPlugs optionalPlugs2
        (loadTrace plugsYamlExists warned) with ⟨requiredPlugs3, optionalPlugs3, e3, trace3⟩
    have h3 : ∀ ev, ev ∈ trace3 → ev ∈ loadTrace plugsYamlExists warned ∨ ev.isQuery = true := by
      intro ev hev
      refine checkRequired_trace env.snapctl requiredPlugs requiredPlugs optionalPlugs2 _ ev ?_
      rw [hR]
      exact hev
    simp only [loadTrace] at hR
    cases e3 with
    | some e =>
      simp only [hW, hP, hL, hS, hR] at h
      exact key (h3 ev h)
    | none =>
      rcases hO : checkOptional env.snapctl optionalPlugs3 optionalPlugs3 trace3
        with ⟨optionalPlugs4, e4, trace4⟩
      have h4 : ev ∈ trace4 → ev ∈ trace3 ∨ ev.isQuery = true := by
        intro hev
        refine checkOptional_trace env.snapctl optionalPlugs3 optionalPlugs3 trace3 ev ?_
        rw [hO]
        exact hev
      have h5 : ev ∈ trace4 := by
        cases e4 <;> simp only [hW, hP, hL, hS, hR, hO] at h <;> exact h
      rcases h4 h5 with h6 | h6
      · exact key (h3 ev h6)
      · exact Or.inl h6


/-! ## Lemmas on `setWarnFlags` -/

theorem anyDisconnected_eq_false_iff (m : PlugMap) :
    anyDisconnected m = false ↔ ∀ e ∈ m, e.2.Connected = true := by
  induction m with
  | nil => simp [anyDisconnected]
  | cons a rest ih =>
    obtain ⟨k, w⟩ := a
    cases hw : w.Connected <;> simp [anyDisconnected, hw, ih]

theorem anyDisconnected_eq_true_iff (m : PlugMap) :
    anyDisconnected m = true ↔ ∃ e ∈ m, e.2.Connected = false := by
  induction m with
  | nil => simp [anyDisconnected]
  | cons a rest ih =>
    obtain ⟨k, w⟩ := a
    cases hw : w.Connected <;> simp [anyDisconnected, hw, ih]

theorem setWarnFlags_keeps_alreadyWarned (flags : FlagStore) (createErr : File → Option Error)
    (state : warningState) (h : flags.alreadyWarned = FileStatus.found) :
    (setWarnFlags flags createErr state).flags.alreadyWarned = FileStatus.found := by
  unfold setWarnFlags
  cases state.AlreadyWarned <;> cases state.WarningsDisabled <;>
    cases anyDisconnected state.RequiredPlugs <;>
    cases createErr File.alreadyWarned <;> cases createErr File.warningsDisabled <;>
    simp [FlagStore.created, h]

theorem setWarnFlags_keeps_warningsDisabled (flags : FlagStore) (createErr : File → Option Error)
    (state : warningState) (h : flags.warningsDisabled = FileStatus.found) :
    (setWarnFlags flags createErr state).flags.warningsDisabled = FileStatus.found := by
  unfold setWarnFlags
  cases state.AlreadyWarned <;> cases state.WarningsDisabled <;>
    cases anyDisconnected state.RequiredPlugs <;>
    cases createErr File.alreadyWarned <;> cases createErr File.warningsDisabled <;>
    simp [FlagStore.created, h]

theorem setWarnFlags_trace (flags : FlagStore) (createErr : File → Option Error)
    (state : warningState) (ev : Event) (h : ev ∈ (setWarnFlags flags createErr state).trace) :
    ev = Event.create File.alreadyWarned ∨ ev = Event.create File.warningsDisabled := by
  unfold setWarnFlags at h
  revert h
  cases state.AlreadyWarned <;> cases state.WarningsDisabled <;>
    cases anyDisconnected state.RequiredPlugs <;>
    cases createErr File.alreadyWarned <;> cases createErr File.warningsDisabled <;>
    simp <;> tauto

theorem runCheck_keeps_markers (flags : FlagStore) (env : Env) :
    (flags.alreadyWarned = FileStatus.found →
        (runCheck flags env).flags.alreadyWarned = FileStatus.found) ∧
      (flags.warningsDisabled = FileStatus.found →
        (runCheck flags env).flags.warningsDisabled = FileStatus.found) :=
  ⟨fun h => setWarnFlags_keeps_alreadyWarned flags env.createErr _ h,
    fun h => setWarnFlags_keeps_warningsDisabled flags env.createErr _ h⟩

theorem runAll_keeps_warningsDisabled (envs : List Env) (flags : FlagStore)
    (h : flags.warningsDisabled = FileStatus.found) :
    (runAll flags envs).warningsDisabled = FileStatus.found := by
  induction envs generalizing flags with
  | nil => exact h
  | cons env rest ih => exact ih _ ((runCheck_keeps_markers flags env).2 h)

theorem runAll_keeps_alreadyWarned (envs : List Env) (flags : FlagStore)
    (h : flags.alreadyWarned = FileStatus.found) :
    (runAll flags envs).alreadyWarned = FileStatus.found := by
  induction envs generalizing flags with
  | nil => exact h
  | cons env rest ih => exact ih _ ((runCheck_keeps_markers flags env).1 h)

theorem setWarnFlags_creates_alreadyWarned (flags : FlagStore)
    (createErr : File → Option Error) (state : warningState)
    (hw : state.AlreadyWarned = false) (hc : createErr File.alreadyWarned = none) :
    (setWarnFlags flags createErr state).flags.alreadyWarned = FileStatus.found ∧
      Event.create File.alreadyWarned ∈ (setWarnFlags flags createErr state).trace := by
  unfold setWarnFlags
  cases state.WarningsDisabled <;> cases anyDisconnected state.RequiredPlugs <;>
    cases createErr File.warningsDisabled <;>
    simp [hw, hc, FlagStore.created]

/-! ## A fresh run, stage by stage -/

theorem PlugMap.eq_of_mem_of_nodup (m : PlugMap) (h : (PlugMap.keys m).Nodup)
    (n : String) (p q : PlugStatus) (hp : (n, p) ∈ m) (hq : (n, q) ∈ m) : p = q := by
  induction m with
  | nil => simp at hp
  | cons a rest ih =>
    simp only [PlugMap.keys, List.map_cons, List.nodup_cons] at h
    have hkey : ∀ v, (n, v) ∈ rest → n ∈ List.map Prod.fst rest := fun v hv =>
      List.mem_map.mpr ⟨(n, v), hv, rfl⟩
    rcases List.mem_cons.mp hp with hp | hp <;> rcases List.mem_cons.mp hq with hq | hq
    · rw [← hp] at hq
      exact (congrArg Prod.snd hq).symm
    · rw [← hp] at h
      exact absurd (hkey q hq) h.1
    · rw [← hq] at h
      exact absurd (hkey p hp) h.1
    · exact ih h.2 hp hq

theorem mem_manifestPlugs (apps : List (String × List String)) (n : String) :
    n ∈ manifestPlugs apps ↔ ∃ app, app ∈ apps ∧ n ∈ app.2 := by
  induction apps with
  | nil => simp [manifestPlugs]
  | cons a rest ih =>
    simp only [manifestPlugs, List.mem_append, ih, List.mem_cons]
    constructor
    · rintro (h | ⟨app, h1, h2⟩)
      · exact ⟨a, Or.inl rfl, h⟩
      · exact ⟨app, Or.inr h1, h2⟩
    · rintro ⟨app, h1 | h1, h2⟩
      · exact Or.inl (h1 ▸ h2)
      · exact Or.inr ⟨app, h1, h2⟩

/-- What a successful `gatherState` with both markers absent computes, stage
by stage, in terms of the declarations and the manifest. -/
theorem gatherState_fresh_ok (flags : FlagStore) (env : Env)
    (hd : flags.warningsDisabled = FileStatus.notExist)
    (ha : flags.alreadyWarned = FileStatus.notExist)
    (h : (gatherState flags env).err = none) :
    ∃ requiredPlugs3 optionalPlugs3 trace3 optionalPlugs4 trace4,
      checkRequired env.snapctl (partitionPlugs (declaredPlugs env) [] []).1
        (partitionPlugs (declaredPlugs env) [] []).1
        (match env.snapYaml with
          | SnapYamlFile.decoded snap _ =>
            addSnapPlugs snap.Apps (partitionPlugs (declaredPlugs env) [] []).2
          | SnapYamlFile.openFails _ => [])
        (loadTrace (checkFileFlag env.plugsYamlStat).1 false)
        = (requiredPlugs3, optionalPlugs3, none, trace3) ∧
      checkOptional env.snapctl optionalPlugs3 optionalPlugs3 trace3
        = (optionalPlugs4, none, trace4) ∧
      (∃ snap, env.snapYaml = SnapYamlFile.decoded snap none) ∧
      gatherState flags env = ⟨⟨false, false, optionalPlugs4, requiredPlugs3⟩, none, trace4⟩ := by
  obtain ⟨warned, plugsYamlExists, requiredPlugs, optionalPlugs, optionalPlugs2,
    requiredPlugs3, optionalPlugs3, trace3, optionalPlugs4, trace4,
    hW, hP, hL, hS, hR, hO, hG⟩ := gatherState_ok flags env hd h
  rw [ha] at hW
  have hw : warned = false := by
    simp [checkFileFlag] at hW
    exact hW
  subst hw
  simp only [Bool.not_false, if_true, Bool.false_eq_true, if_false] at hS
  have hsnap : ∃ snap, env.snapYaml = SnapYamlFile.decoded snap none ∧
      optionalPlugs2 = addSnapPlugs snap.Apps optionalPlugs := by
    cases hy : env.snapYaml with
    | openFails e => simp [hy, loadFromSnapYaml] at hS
    | decoded snap err =>
      cases err with
      | some e => simp [hy, loadFromSnapYaml] at hS
      | none =>
        simp [hy, loadFromSnapYaml] at hS
        exact ⟨snap, rfl, hS.symm⟩
  obtain ⟨snap, hsnap, hopt2⟩ := hsnap
  have hdecl : requiredPlugs = (partitionPlugs (declaredPlugs env) [] []).1 ∧
      optionalPlugs = (partitionPlugs (declaredPlugs env) [] []).2 := by
    cases hst : env.plugsYamlStat with
    | failure e => simp [hst, checkFileFlag] at hP
    | notExist =>
      simp [hst, checkFileFlag] at hP
      subst hP
      simp at hL
      simp [declaredPlugs, hst, partitionPlugs, hL.1, hL.2]
    | found =>
      simp [hst, checkFileFlag] at hP
      subst hP
      simp only [if_true] at hL
      cases hf : env.plugsYaml with
      | openFails e => simp [hf, loadPlugsYaml] at hL
      | decoded plugs err =>
        simp [hf, loadPlugsYaml] at hL
        simp [declaredPlugs, hst, hf, hL.1, hL.2.1]
  refine ⟨requiredPlugs3, optionalPlugs3, trace3, optionalPlugs4, trace4, ?_, hO,
    ⟨snap, hsnap⟩, hG⟩
  rw [← hdecl.1, ← hdecl.2, hsnap, hP]
  simp only [← hopt2]
  exact hR

/-! ## Lemmas on the message loops -/

theorem plugLine_length_pos (plugName reason : String) :
    0 < (plugLine plugName reason).length := by
  have h : 0 < ("\t" : String).length := by decide
  simp only [plugLine, String.length_append]
  omega

theorem appendDisconnected_all_connected (m : PlugMap) (msg : String)
    (h : ∀ e ∈ m, e.2.Connected = true) : appendDisconnected m msg = msg := by
  induction m generalizing msg with
  | nil => rfl
  | cons a rest ih =>
    obtain ⟨k, w⟩ := a
    have hw : w.Connected = true := h (k, w) (List.mem_cons_self _ _)
    simp only [appendDisconnected, hw, if_true]
    exact ih msg fun e he => h e (List.mem_cons_of_mem _ he)

theorem appendDisconnected_length_le (m : PlugMap) (msg : String) :
    msg.length ≤ (appendDisconnected m msg).length := by
  induction m generalizing msg with
  | nil => exact Nat.le_refl _
  | cons a rest ih =>
    obtain ⟨k, w⟩ := a
    simp only [appendDisconnected]
    split
    · exact ih msg
    · refine Nat.le_trans ?_ (ih _)
      rw [String.length_append]
      omega

theorem appendDisconnected_length_lt (m : PlugMap) (msg : String)
    (h : ∃ e ∈ m, e.2.Connected = false) :
    msg.length < (appendDisconnected m msg).length := by
  induction m generalizing msg with
  | nil => simp at h
  | cons a rest ih =>
    obtain ⟨k, w⟩ := a
    simp only [appendDisconnected]
    split
    · rename_i hw
      obtain ⟨e, he, hc⟩ := h
      rcases List.mem_cons.mp he with he | he
      · rw [he] at hc
        simp only at hc
        rw [hw] at hc
        exact absurd hc (by decide)
      · exact ih msg ⟨e, he, hc⟩
    · refine Nat.lt_of_lt_of_le ?_ (appendDisconnected_length_le rest _)
      rw [String.length_append]
      have := plugLine_length_pos k w.Reason
      omega

theorem String.ne_empty_of_length_pos (s : String) (h : 0 < s.length) : s ≠ "" := by
  intro hs
  rw [hs] at h
  simp at h

/-! ## More lemmas on the message -/

theorem String.eq_empty_iff_data (s : String) : s = "" ↔ s.data = [] := by
  constructor
  · intro h
    rw [h]
  · intro h
    exact String.ext h

theorem String.append_eq_empty_iff (a b : String) : a ++ b = "" ↔ a = "" ∧ b = "" := by
  simp only [String.eq_empty_iff_data, String.data_append, List.append_eq_nil]

theorem appendDisconnected_filter (m : PlugMap) (msg : String) :
    appendDisconnected (m.filter fun e => !e.2.Connected) msg = appendDisconnected m msg := by
  induction m generalizing msg with
  | nil => rfl
  | cons a rest ih =>
    obtain ⟨k, w⟩ := a
    cases hw : w.Connected
    · simp only [List.filter, hw, Bool.not_false, appendDisconnected, Bool.false_eq_true, if_false]
      exact ih _
    · simp only [List.filter, hw, Bool.not_true, appendDisconnected, if_true]
      exact ih _

/-- The accumulator of a message loop only grows at its end. -/
theorem appendDisconnected_eq_append (m : PlugMap) (msg : String) :
    appendDisconnected m msg = msg ++ appendDisconnected m "" := by
  induction m generalizing msg with
  | nil => simp [appendDisconnected]
  | cons a rest ih =>
    obtain ⟨k, w⟩ := a
    simp only [appendDisconnected]
    split
    · exact ih msg
    · rw [ih (msg ++ plugLine k w.Reason), ih ("" ++ plugLine k w.Reason)]
      simp [String.append_assoc]

theorem appendDisconnected_contains (m : PlugMap) (e : String × PlugStatus)
    (he : e ∈ m) (hc : e.2.Connected = false) :
    ∃ pre post, appendDisconnected m "" = pre ++ plugLine e.1 e.2.Reason ++ post := by
  induction m with
  | nil => simp at he
  | cons a rest ih =>
    obtain ⟨k, w⟩ := a
    rcases List.mem_cons.mp he with rfl | he
    · simp only at hc
      refine ⟨"", appendDisconnected rest "", ?_⟩
      simp only [appendDisconnected, hc, Bool.false_eq_true, if_false]
      exact appendDisconnected_eq_append rest _
    · obtain ⟨pre, post, hpp⟩ := ih he
      simp only [appendDisconnected]
      split
      · exact ⟨pre, post, hpp⟩
      · refine ⟨"" ++ plugLine k w.Reason ++ pre, post, ?_⟩
        rw [appendDisconnected_eq_append rest _, hpp]
        simp [String.append_assoc]

theorem appendDisconnected_empty_iff (m : PlugMap) :
    appendDisconnected m "" = "" ↔ ∀ e ∈ m, e.2.Connected = true := by
  constructor
  · intro h e he
    cases hc : e.2.Connected
    · have := appendDisconnected_length_lt m "" ⟨e, he, hc⟩
      rw [h] at this
      simp at this
    · rfl
  · exact appendDisconnected_all_connected m ""

/-- The message as a function of its two sections: `optionalLines` is what the
first loop of `getWarnMessage` collects and `requiredMsg` what the second one
does. -/
theorem getWarnMessage_eq (state : warningState) (hd : state.WarningsDisabled = false) :
    getWarnMessage state =
      (if appendDisconnected state.RequiredPlugs "" = "" then
        (if optionalSection state = "" then "" else optionalSection state ++ "\n\n")
      else optionalSection state ++ "\n" ++ MSG_REQUIRED_PLUGS ++ "\n" ++
        appendDisconnected state.RequiredPlugs "" ++ "\n\n") := by
  have hn : ("\n" : String) ≠ "" := by decide
  unfold getWarnMessage optionalSection
  simp only [hd, Bool.false_eq_true, if_false]
  generalize (if (!state.AlreadyWarned) = true then
    appendDisconnected state.OptionalPlugs "" else "") = o
  generalize appendDisconnected state.RequiredPlugs "" = r
  by_cases hr : r = "" <;> by_cases ho : o = "" <;>
    simp [hr, ho, hn, String.append_eq_empty_iff]

theorem optionalSection_empty_iff (state : warningState) :
    optionalSection state = "" ↔
      (state.AlreadyWarned = true ∨ ∀ e ∈ state.OptionalPlugs, e.2.Connected = true) := by
  have hn : ("\n" : String) ≠ "" := by decide
  unfold optionalSection
  rw [← appendDisconnected_empty_iff]
  cases state.AlreadyWarned
  · by_cases ho : appendDisconnected state.OptionalPlugs "" = "" <;>
      simp [ho, hn, String.append_eq_empty_iff]
  · simp

/-! ## Lemmas on whole runs -/

theorem gatherState_warningsDisabled (flags : FlagStore) (env : Env)
    (h : (gatherState flags env).state.WarningsDisabled = true) :
    flags.warningsDisabled = FileStatus.found := by
  cases hd : flags.warningsDisabled with
  | found => rfl
  | failure e =>
    rw [gatherState_statFailure flags env e hd] at h
    simp [warningState.zero] at h
  | notExist =>
    cases herr : (gatherState flags env).err with
    | some e =>
      rw [(gatherState_failed flags env e herr).2.2] at h
      exact absurd h (by decide)
    | none =>
      obtain ⟨warned, plugsYamlExists, requiredPlugs, optionalPlugs, optionalPlugs2,
        requiredPlugs3, optionalPlugs3, trace3, optionalPlugs4, trace4,
        _, _, _, _, _, _, hG⟩ := gatherState_ok flags env hd herr
      rw [hG] at h
      exact absurd h (by simp)

theorem gatherState_optional_nil_of_warned (flags : FlagStore) (env : Env)
    (ha : flags.alreadyWarned = FileStatus.found) :
    (gatherState flags env).state.OptionalPlugs = [] := by
  cases hd : flags.warningsDisabled with
  | found =>
    rw [gatherState_disabled flags env hd]
    rfl
  | failure e =>
    rw [gatherState_statFailure flags env e hd]
    rfl
  | notExist =>
    cases herr : (gatherState flags env).err with
    | some e => exact (gatherState_failed flags env e herr).1
    | none =>
      obtain ⟨warned, plugsYamlExists, requiredPlugs, optionalPlugs, optionalPlugs2,
        requiredPlugs3, optionalPlugs3, trace3, optionalPlugs4, trace4,
        hW, _, _, hS, hR, hO, hG⟩ := gatherState_ok flags env hd herr
      rw [ha] at hW
      have hw : warned = true := by
        simp [checkFileFlag] at hW
        exact hW
      subst hw
      simp at hS
      subst hS
      have h3 : optionalPlugs3 = [] := by
        refine List.eq_nil_iff_forall_not_mem.mpr fun e he => ?_
        have := checkRequired_optional_mem env.snapctl requiredPlugs requiredPlugs []
          (loadTrace plugsYamlExists true) e (by rw [hR]; exact he)
        simp at this
      subst h3
      simp [checkOptional] at hO
      rw [hG]
      exact hO.1

theorem getWarnMessage_no_optional (state : warningState)
    (ho : state.OptionalPlugs = []) (hr : state.WarningsDisabled = true → state.RequiredPlugs = []) :
    getWarnMessage state = requiredOnlyMessage state.RequiredPlugs := by
  unfold requiredOnlyMessage getWarnMessage
  cases hd : state.WarningsDisabled
  · cases state.AlreadyWarned <;> simp [ho, appendDisconnected]
  · simp [hr hd, appendDisconnected]

theorem runCheck_alreadyWarned_found (flags : FlagStore) (env : Env)
    (hc : env.createErr File.alreadyWarned = none) :
    (runCheck flags env).flags.alreadyWarned = FileStatus.found := by
  cases hw : (gatherState flags env).state.AlreadyWarned
  · exact (setWarnFlags_creates_alreadyWarned flags env.createErr _ hw hc).1
  · exact setWarnFlags_keeps_alreadyWarned flags env.createErr _
      (gatherState_alreadyWarned flags env hw)

/-- `setWarnFlags` keeps the invariant "WarningsDisabled exists only if
AlreadyWarned exists", on a snapshot whose `AlreadyWarned` was read from the
flag store. -/
theorem setWarnFlags_invariant (flags : FlagStore) (createErr : File → Option Error)
    (state : warningState)
    (hs : state.AlreadyWarned = true → flags.alreadyWarned = FileStatus.found)
    (hI : flags.warningsDisabled = FileStatus.found → flags.alreadyWarned = FileStatus.found)
    (h : (setWarnFlags flags createErr state).flags.warningsDisabled = FileStatus.found) :
    (setWarnFlags flags createErr state).flags.alreadyWarned = FileStatus.found := by
  unfold setWarnFlags at h ⊢
  revert h
  cases hsa : state.AlreadyWarned <;> cases state.WarningsDisabled <;>
    cases anyDisconnected state.RequiredPlugs <;>
    cases createErr File.alreadyWarned <;> cases createErr File.warningsDisabled <;>
    simp_all [FlagStore.created]

theorem runAll_invariant (envs : List Env) (flags : FlagStore)
    (hI : flags.warningsDisabled = FileStatus.found → flags.alreadyWarned = FileStatus.found)
    (h : (runAll flags envs).warningsDisabled = FileStatus.found) :
    (runAll flags envs).alreadyWarned = FileStatus.found := by
  induction envs generalizing flags with
  | nil => exact hI h
  | cons env rest ih =>
    exact ih (runCheck flags env).flags
      (setWarnFlags_invariant flags env.createErr _ (gatherState_alreadyWarned flags env) hI) h

theorem setWarnFlags_disables (flags : FlagStore) (createErr : File → Option Error)
    (state : warningState) (hd : state.WarningsDisabled = false)
    (hr : state.RequiredPlugs = [])
    (hc1 : createErr File.alreadyWarned = none)
    (hc2 : createErr File.warningsDisabled = none) :
    (setWarnFlags flags createErr state).flags.warningsDisabled = FileStatus.found ∧
      Event.create File.warningsDisabled ∈ (setWarnFlags flags createErr state).trace := by
  unfold setWarnFlags
  cases state.AlreadyWarned <;>
    simp [hd, hr, hc1, hc2, FlagStore.created, anyDisconnected]

/-! ## Maps with distinct keys and the values the loops leave -/

theorem PlugMap.get?_set (m : PlugMap) (k : String) (v : PlugStatus) (n : String) :
    PlugMap.get? (PlugMap.set m k v) n = if k = n then some v else PlugMap.get? m n := by
  induction m with
  | nil => simp [PlugMap.set, PlugMap.get?]
  | cons a rest ih =>
    obtain ⟨k', w⟩ := a
    simp only [PlugMap.set]
    by_cases hk : k' = k
    · subst hk
      by_cases hn : k' = n <;> simp [PlugMap.get?, hn]
    · simp only [hk, if_false, PlugMap.get?, ih]
      by_cases hn : k' = n
      · have : ¬ k = n := fun h => hk (hn.trans h.symm)
        simp [hn, this]
      · simp [hn]

theorem PlugMap.nodup_set (m : PlugMap) (k : String) (v : PlugStatus)
    (h : (PlugMap.keys m).Nodup) : (PlugMap.keys (PlugMap.set m k v)).Nodup := by
  induction m with
  | nil => simp [PlugMap.set, PlugMap.keys]
  | cons a rest ih =>
    obtain ⟨k', w⟩ := a
    have h2 : k' ∉ PlugMap.keys rest ∧ (PlugMap.keys rest).Nodup := by
      simpa [PlugMap.keys] using h
    simp only [PlugMap.set]
    split
    · rename_i hk
      subst hk
      simpa [PlugMap.keys] using h
    · rename_i hk
      have h3 : k' ∉ PlugMap.keys (PlugMap.set rest k v) := by
        rw [PlugMap.mem_keys_set]
        rintro (h4 | h4)
        · exact hk h4
        · exact h2.1 h4
      have h5 := ih h2.2
      simp only [PlugMap.keys, List.map_cons, List.nodup_cons] at h3 h5 ⊢
      exact ⟨h3, h5⟩

theorem PlugMap.nodup_delete (m : PlugMap) (k : String)
    (h : (PlugMap.keys m).Nodup) : (PlugMap.keys (PlugMap.delete m k)).Nodup :=
  List.Nodup.sublist (List.Sublist.map Prod.fst (List.filter_sublist m)) h

theorem PlugMap.get?_of_mem (m : PlugMap) (h : (PlugMap.keys m).Nodup)
    (n : String) (v : PlugStatus) (hv : (n, v) ∈ m) : PlugMap.get? m n = some v := by
  have hk : n ∈ PlugMap.keys m := (PlugMap.mem_keys_iff m n).mpr ⟨v, hv⟩
  obtain ⟨w, hw⟩ := Option.isSome_iff_exists.mp ((PlugMap.get?_isSome_iff m n).mpr hk)
  rw [hw, PlugMap.eq_of_mem_of_nodup m h n w v (PlugMap.mem_of_get? m n w hw) hv]

theorem partitionPlugs_nodup (plugs requiredPlugs optionalPlugs : PlugMap)
    (hr : (PlugMap.keys requiredPlugs).Nodup) (ho : (PlugMap.keys optionalPlugs).Nodup) :
    (PlugMap.keys (partitionPlugs plugs requiredPlugs optionalPlugs).1).Nodup ∧
      (PlugMap.keys (partitionPlugs plugs requiredPlugs optionalPlugs).2).Nodup := by
  induction plugs generalizing requiredPlugs optionalPlugs with
  | nil => exact ⟨hr, ho⟩
  | cons a rest ih =>
    obtain ⟨k, w⟩ := a
    simp only [partitionPlugs]
    split
    · exact ih _ _ (PlugMap.nodup_set _ _ _ hr) ho
    · exact ih _ _ hr (PlugMap.nodup_set _ _ _ ho)

theorem addAppPlugs_nodup (names : List String) (plugs : PlugMap)
    (h : (PlugMap.keys plugs).Nodup) : (PlugMap.keys (addAppPlugs names plugs)).Nodup := by
  induction names generalizing plugs with
  | nil => exact h
  | cons a rest ih =>
    simp only [addAppPlugs]
    split
    · exact ih _ h
    · exact ih _ (PlugMap.nodup_set _ _ _ h)

theorem addSnapPlugs_nodup (apps : List (String × List String)) (plugs : PlugMap)
    (h : (PlugMap.keys plugs).Nodup) : (PlugMap.keys (addSnapPlugs apps plugs)).Nodup := by
  induction apps generalizing plugs with
  | nil => exact h
  | cons a rest ih => exact ih _ (addAppPlugs_nodup _ _ h)

theorem checkRequired_nodup (snapctl : String → CmdResult)
    (es requiredPlugs optionalPlugs : PlugMap) (trace : List Event)
    (hr : (PlugMap.keys requiredPlugs).Nodup) (ho : (PlugMap.keys optionalPlugs).Nodup) :
    (PlugMap.keys (checkRequired snapctl es requiredPlugs optionalPlugs trace).1).Nodup ∧
      (PlugMap.keys (checkRequired snapctl es requiredPlugs optionalPlugs trace).2.1).Nodup := by
  induction es generalizing requiredPlugs optionalPlugs trace with
  | nil => exact ⟨hr, ho⟩
  | cons a rest ih =>
    obtain ⟨k, w⟩ := a
    simp only [checkRequired]
    split
    · exact ⟨hr, ho⟩
    · exact ih _ _ _ (PlugMap.nodup_set _ _ _ hr) (PlugMap.nodup_delete _ _ ho)

theorem checkOptional_nodup (snapctl : String → CmdResult)
    (es optionalPlugs : PlugMap) (trace : List Event)
    (ho : (PlugMap.keys optionalPlugs).Nodup) :
    (PlugMap.keys (checkOptional snapctl es optionalPlugs trace).1).Nodup := by
  induction es generalizing optionalPlugs trace with
  | nil => exact ho
  | cons a rest ih =>
    obtain ⟨k, w⟩ := a
    simp only [checkOptional]
    split
    · exact ho
    · exact ih _ _ (PlugMap.nodup_set _ _ _ ho)

/-- The value a successful first connection loop leaves under a name: the
visited entry of that name with the oracle's answer in `Connected`, or, for a
name the loop did not visit, the value it had. -/
theorem checkRequired_value (snapctl : String → CmdResult)
    (es requiredPlugs optionalPlugs : PlugMap) (trace : List Event)
    (h : (checkRequired snapctl es requiredPlugs optionalPlugs trace).2.2.1 = none)
    (n : String) (v : PlugStatus)
    (hv : PlugMap.get? (checkRequired snapctl es requiredPlugs optionalPlugs trace).1 n = some v) :
    (∃ w, (n, w) ∈ es ∧ v.Required = w.Required ∧ v.Reason = w.Reason ∧
        plugIsConnected (snapctl n) = (v.Connected, none)) ∨
      (n ∉ PlugMap.keys es ∧ PlugMap.get? requiredPlugs n = some v) := by
  induction es generalizing requiredPlugs optionalPlugs trace with
  | nil => exact Or.inr ⟨by simp [PlugMap.keys], by simpa [checkRequired] using hv⟩
  | cons a rest ih =>
    obtain ⟨k, w⟩ := a
    simp only [checkRequired] at h hv
    split at h
    · simp at h
    · rename_i c hc
      simp only [hc] at hv
      rcases ih _ _ _ h hv with ⟨w2, h1, h2, h3, h4⟩ | ⟨h1, h2⟩
      · exact Or.inl ⟨w2, List.mem_cons_of_mem _ h1, h2, h3, h4⟩
      · rw [PlugMap.get?_set] at h2
        split at h2
        · rename_i hk
          subst hk
          simp only [Option.some.injEq] at h2
          subst h2
          exact Or.inl ⟨w, List.mem_cons_self _ _, rfl, rfl, hc⟩
        · rename_i hk
          refine Or.inr ⟨?_, h2⟩
          simp only [PlugMap.keys, List.map_cons, List.mem_cons, not_or] at h1 ⊢
          exact ⟨fun hx => hk hx.symm, h1⟩

theorem checkOptional_value (snapctl : String → CmdResult)
    (es optionalPlugs : PlugMap) (trace : List Event)
    (h : (checkOptional snapctl es optionalPlugs trace).2.1 = none)
    (n : String) (v : PlugStatus)
    (hv : PlugMap.get? (checkOptional snapctl es optionalPlugs trace).1 n = some v) :
    (∃ w, (n, w) ∈ es ∧ v.Required = w.Required ∧ v.Reason = w.Reason ∧
        plugIsConnected (snapctl n) = (v.Connected, none)) ∨
      (n ∉ PlugMap.keys es ∧ PlugMap.get? optionalPlugs n = some v) := by
  induction es generalizing optionalPlugs trace with
  | nil => exact Or.inr ⟨by simp [PlugMap.keys], by simpa [checkOptional] using hv⟩
  | cons a rest ih =>
    obtain ⟨k, w⟩ := a
    simp only [checkOptional] at h hv
    split at h
    · simp at h
    · rename_i c hc
      simp only [hc] at hv
      rcases ih _ _ h hv with ⟨w2, h1, h2, h3, h4⟩ | ⟨h1, h2⟩
      · exact Or.inl ⟨w2, List.mem_cons_of_mem _ h1, h2, h3, h4⟩
      · rw [PlugMap.get?_set] at h2
        split at h2
        · rename_i hk
          subst hk
          simp only [Option.some.injEq] at h2
          subst h2
          exact Or.inl ⟨w, List.mem_cons_self _ _, rfl, rfl, hc⟩
        · rename_i hk
          refine Or.inr ⟨?_, h2⟩
          simp only [PlugMap.keys, List.map_cons, List.mem_cons, not_or] at h1 ⊢
          exact ⟨fun hx => hk hx.symm, h1⟩

/-- A successful first connection loop queries the oracle once per visited
entry, in order, and makes no other system call. -/
theorem checkRequired_trace_eq (snapctl : String → CmdResult)
    (es requiredPlugs optionalPlugs : PlugMap) (trace : List Event)
    (h : (checkRequired snapctl es requiredPlugs optionalPlugs trace).2.2.1 = none) :
    (checkRequired snapctl es requiredPlugs optionalPlugs trace).2.2.2 =
      trace ++ (PlugMap.keys es).map Event.query := by
  induction es generalizing requiredPlugs optionalPlugs trace with
  | nil => simp [checkRequired, PlugMap.keys]
  | cons a rest ih =>
    obtain ⟨k, w⟩ := a
    simp only [checkRequired] at h ⊢
    split at h
    · simp at h
    · rw [ih _ _ _ h]
      simp [PlugMap.keys]

theorem checkOptional_trace_eq (snapctl : String → CmdResult)
    (es optionalPlugs : PlugMap) (trace : List Event)
    (h : (checkOptional snapctl es optionalPlugs trace).2.1 = none) :
    (checkOptional snapctl es optionalPlugs trace).2.2 =
      trace ++ (PlugMap.keys es).map Event.query := by
  induction es generalizing optionalPlugs trace with
  | nil => simp [checkOptional, PlugMap.keys]
  | cons a rest ih =>
    obtain ⟨k, w⟩ := a
    simp only [checkOptional] at h ⊢
    split at h
    · simp at h
    · rw [ih _ _ h]
      simp [PlugMap.keys]

theorem count_query_map (n : String) (ks : List String) :
    List.count (Event.query n) (ks.map Event.query) = List.count n ks := by
  induction ks with
  | nil => rfl
  | cons k rest ih => simp [List.count_cons, ih]

theorem count_query_loadTrace (n : String) (plugsYamlExists warned : Bool) :
    List.count (Event.query n) (loadTrace plugsYamlExists warned) = 0 := by
  cases plugsYamlExists <;> cases warned <;> simp [loadTrace, List.count_cons]

/-! ## A successful run in terms of what was loaded -/

theorem loadedRequired_nodup (env : Env) : (PlugMap.keys (loadedRequired env)).Nodup := by
  unfold loadedRequired
  split
  · cases env.plugsYaml with
    | openFails e => simp [loadPlugsYaml, PlugMap.keys]
    | decoded plugs err =>
      exact (partitionPlugs_nodup plugs [] [] List.nodup_nil List.nodup_nil).1
  · exact List.nodup_nil

theorem loadedOptional_nodup (flags : FlagStore) (env : Env) :
    (PlugMap.keys (loadedOptional flags env)).Nodup := by
  have h1 : (PlugMap.keys (if (checkFileFlag env.plugsYamlStat).1 then
      (loadPlugsYaml env.plugsYaml).2.1 else [])).Nodup := by
    split
    · cases env.plugsYaml with
      | openFails e => simp [loadPlugsYaml, PlugMap.keys]
      | decoded plugs err =>
        exact (partitionPlugs_nodup plugs [] [] List.nodup_nil List.nodup_nil).2
    · exact List.nodup_nil
  unfold loadedOptional
  split
  · exact List.nodup_nil
  · cases env.snapYaml with
    | openFails e => exact h1
    | decoded snap err =>
      cases err with
      | some e => exact h1
      | none => exact addSnapPlugs_nodup _ _ h1

theorem gatherState_ok_loaded (flags : FlagStore) (env : Env)
    (hd : flags.warningsDisabled = FileStatus.notExist)
    (h : (gatherState flags env).err = none) :
    ∃ warned plugsYamlExists requiredPlugs3 optionalPlugs3 trace3 optionalPlugs4 trace4,
      checkRequired env.snapctl (loadedRequired env) (loadedRequired env)
        (loadedOptional flags env) (loadTrace plugsYamlExists warned)
        = (requiredPlugs3, optionalPlugs3, none, trace3) ∧
      checkOptional env.snapctl optionalPlugs3 optionalPlugs3 trace3
        = (optionalPlugs4, none, trace4) ∧
      gatherState flags env = ⟨⟨false, warned, optionalPlugs4, requiredPlugs3⟩, none, trace4⟩ := by
  obtain ⟨warned, plugsYamlExists, requiredPlugs, optionalPlugs, optionalPlugs2,
    requiredPlugs3, optionalPlugs3, trace3, optionalPlugs4, trace4,
    hW, hP, hL, hS, hR, hO, hG⟩ := gatherState_ok flags env hd h
  have hreq : loadedRequired env = requiredPlugs := by
    unfold loadedRequired
    rw [hP]
    cases plugsYamlExists
    · simp at hL ⊢
      exact hL.1
    · simp only [if_true] at hL ⊢
      rw [hL]
  have hopt : loadedOptional flags env = optionalPlugs2 := by
    unfold loadedOptional
    rw [hP, hW]
    cases warned
    · simp only [Bool.not_false, if_true, Bool.false_eq_true, if_false] at hS ⊢
      cases plugsYamlExists
      · simp at hL
        simp only [Bool.false_eq_true, if_false]
        rw [← hL.2, hS]
      · simp only [if_true] at hL ⊢
        rw [hL, hS]
    · simp at hS ⊢
      exact hS
  refine ⟨warned, plugsYamlExists, requiredPlugs3, optionalPlugs3, trace3, optionalPlugs4,
    trace4, ?_, hO, hG⟩
  rw [hreq, hopt]
  exact hR

/-! ## Where a text can occur in the message -/

theorem containsText_iff_data (s sub : String) :
    containsText s sub ↔ sub.data <:+: s.data := by
  constructor
  · rintro ⟨pre, post, h⟩
    rw [h]
    exact ⟨pre.data, post.data, by simp [String.data_append]⟩
  · rintro ⟨a, b, h⟩
    refine ⟨⟨a⟩, ⟨b⟩, String.ext ?_⟩
    simp [String.data_append, h]

theorem List.prefix_of_prefix_append_cons {α : Type} (p a b : List α) (c : α)
    (hc : c ∉ p) (h : p <+: a ++ c :: b) : p <+: a := by
  induction a generalizing p with
  | nil =>
    rcases List.prefix_cons_iff.mp h with h1 | ⟨t, h1, _⟩
    · rw [h1]
    · rw [h1] at hc
      exact absurd (List.mem_cons_self _ _) hc
  | cons x rest ih =>
    rcases List.prefix_cons_iff.mp h with h1 | ⟨t, h1, h2⟩
    · rw [h1]
      exact List.nil_prefix
    · rw [h1] at hc ⊢
      have ht : c ∉ t := fun hx => hc (List.mem_cons_of_mem _ hx)
      exact List.cons_prefix_cons.mpr ⟨rfl, ih t ht h2⟩

/-- An occurrence of `p` in `a ++ c :: b`, where `c` does not occur in `p`,
lies in `a` or in `b`. -/
theorem List.infix_of_infix_append_cons {α : Type} (p a b : List α) (c : α)
    (hc : c ∉ p) (h : p <:+: a ++ c :: b) : p <:+: a ∨ p <:+: b := by
  induction a with
  | nil =>
    rcases List.infix_cons_iff.mp h with h1 | h1
    · exact Or.inl (List.prefix_of_prefix_append_cons p [] b c hc h1).isInfix
    · exact Or.inr h1
  | cons x rest ih =>
    rcases List.infix_cons_iff.mp h with h1 | h1
    · exact Or.inl (List.prefix_of_prefix_append_cons p (x :: rest) b c hc h1).isInfix
    · rcases ih h1 with h2 | h2
      · exact Or.inl (List.infix_cons h2)
      · exact Or.inr h2

/-- An occurrence of `c0 :: p` in `x :: l` with `x ≠ c0` lies in `l`. -/
theorem List.infix_of_infix_cons_ne {α : Type} (p l : List α) (c0 x : α)
    (hx : x ≠ c0) (h : c0 :: p <:+: x :: l) : c0 :: p <:+: l := by
  rcases List.infix_cons_iff.mp h with h1 | h1
  · exact absurd (List.cons_prefix_cons.mp h1).1.symm hx
  · exact h1

theorem headerLike_optional : headerLike MSG_OPTIONAL_PLUGS.data :=
  ⟨'C', _, rfl, by decide, by decide, by decide, by decide⟩

theorem headerLike_not_infix_nil (p : List Char) (hp : headerLike p) : ¬ p <:+: [] := by
  obtain ⟨c0, rest, h, _⟩ := hp
  intro hx
  rw [List.infix_nil.mp hx] at h
  exact absurd h (by simp)

theorem plugLine_data (plugName reason : String) :
    (plugLine plugName reason).data =
      '\t' :: (plugName.data ++ '\t' :: '\t' :: '-' :: ' ' :: (reason.data ++ ['\n'])) := by
  have h1 : ("\t" : String).data = ['\t'] := rfl
  have h2 : ("\t\t- " : String).data = ['\t', '\t', '-', ' '] := rfl
  have h3 : ("\n" : String).data = ['\n'] := rfl
  simp [plugLine, String.data_append, h1, h2, h3]

/-- An occurrence of a header-like text in a line followed by more text lies
in the name, in the reason or in what follows the line. -/
theorem infix_plugLine (p : List Char) (hp : headerLike p) (plugName reason : String)
    (tail : List Char) (h : p <:+: (plugLine plugName reason).data ++ tail) :
    p <:+: plugName.data ∨ p <:+: reason.data ∨ p <:+: tail := by
  have hnil := headerLike_not_infix_nil p hp
  obtain ⟨c0, rest, hp0, hd, hs, ht, hn⟩ := hp
  rw [plugLine_data] at h
  simp only [List.cons_append, List.append_assoc, List.singleton_append] at h
  -- the tab in front of the name
  rcases List.infix_of_infix_append_cons p [] _ '\t' ht h with h1 | h1
  · exact absurd h1 hnil
  -- the name, up to the first tab of the separator
  rcases List.infix_of_infix_append_cons p plugName.data _ '\t' ht h1 with h2 | h2
  · exact Or.inl h2
  -- the second tab of the separator
  rcases List.infix_of_infix_append_cons p [] _ '\t' ht h2 with h3 | h3
  · exact absurd h3 hnil
  -- the hyphen and the blank cannot start the text
  rw [hp0] at h3
  have h4 := List.infix_of_infix_cons_ne rest _ c0 '-' (fun hx => hd hx.symm) h3
  have h5 := List.infix_of_infix_cons_ne rest _ c0 ' ' (fun hx => hs hx.symm) h4
  rw [← hp0] at h5
  -- the reason, up to the newline that ends the line
  rcases List.infix_of_infix_append_cons p reason.data tail '\n' hn h5 with h6 | h6
  · exact Or.inr (Or.inl h6)
  · exact Or.inr (Or.inr h6)

theorem appendDisconnected_cons_data (plugName : String) (plug : PlugStatus) (rest : PlugMap)
    (hc : plug.Connected = false) :
    (appendDisconnected ((plugName, plug) :: rest) "").data =
      (plugLine plugName plug.Reason).data ++ (appendDisconnected rest "").data := by
  simp only [appendDisconnected, hc, Bool.false_eq_true, if_false]
  rw [appendDisconnected_eq_append rest _]
  simp [String.data_append]

/-- An occurrence of a header-like text in the lines of a message loop lies in
the name or the reason of one of the disconnected plugs. -/
theorem infix_appendDisconnected (p : List Char) (hp : headerLike p) (m : PlugMap)
    (h : p <:+: (appendDisconnected m "").data) :
    ∃ e ∈ m, e.2.Connected = false ∧ (p <:+: e.1.data ∨ p <:+: e.2.Reason.data) := by
  induction m with
  | nil => exact absurd h (headerLike_not_infix_nil p hp)
  | cons a rest ih =>
    obtain ⟨k, w⟩ := a
    cases hc : w.Connected with
    | true =>
      simp only [appendDisconnected, hc, if_true] at h
      obtain ⟨e, he, h1, h2⟩ := ih h
      exact ⟨e, List.mem_cons_of_mem _ he, h1, h2⟩
    | false =>
      rw [appendDisconnected_cons_data k w rest hc] at h
      rcases infix_plugLine p hp k w.Reason _ h with h1 | h1 | h1
      · exact ⟨(k, w), List.mem_cons_self _ _, hc, Or.inl h1⟩
      · exact ⟨(k, w), List.mem_cons_self _ _, hc, Or.inr h1⟩
      · obtain ⟨e, he, h2, h3⟩ := ih h1
        exact ⟨e, List.mem_cons_of_mem _ he, h2, h3⟩

/-- An occurrence of the header of the optional plugs in a message that has
only a required section lies in the name or the reason of a disconnected
required plug. -/
theorem infix_requiredSection (m : PlugMap)
    (h : MSG_OPTIONAL_PLUGS.data <:+:
      ("\n" ++ MSG_REQUIRED_PLUGS ++ "\n" ++ appendDisconnected m "" ++ "\n\n").data) :
    ∃ e ∈ m, e.2.Connected = false ∧
      (MSG_OPTIONAL_PLUGS.data <:+: e.1.data ∨ MSG_OPTIONAL_PLUGS.data <:+: e.2.Reason.data) := by
  have hp := headerLike_optional
  have hnil := headerLike_not_infix_nil _ hp
  have hn : '\n' ∉ MSG_OPTIONAL_PLUGS.data := by decide
  have h1 : ("\n" : String).data = ['\n'] := rfl
  have h2 : ("\n\n" : String).data = ['\n', '\n'] := rfl
  simp only [String.data_append, h1, h2, List.append_assoc, List.singleton_append] at h
  rcases List.infix_of_infix_append_cons _ [] _ '\n' hn h with h3 | h3
  · exact absurd h3 hnil
  rcases List.infix_of_infix_append_cons _ MSG_REQUIRED_PLUGS.data _ '\n' hn h3 with h4 | h4
  · have hC : 'C' ∈ MSG_REQUIRED_PLUGS.data :=
      List.IsInfix.mem (by decide : 'C' ∈ MSG_OPTIONAL_PLUGS.data) h4
    exact absurd hC (by decide)
  rcases List.infix_of_infix_append_cons _ (appendDisconnected m "").data _ '\n' hn h4 with
    h5 | h5
  · exact infix_appendDisconnected _ hp m h5
  · rcases List.infix_of_infix_append_cons _ [] [] '\n' hn h5 with h6 | h6
    · exact absurd h6 hnil
    · exact absurd h6 hnil

/-! ## Scenario checks -/

theorem scenarioA_run :
    (runCheck freshFlags envA).msg =
        "\nThe follow interfaces must be connected for app to work properly:\n\tnet\t\t- needed for sync\n\n\n" ∧
      (runCheck freshFlags envA).flags = ⟨FileStatus.found, FileStatus.notExist⟩ := by
  decide

theorem scenarioB_run :
    (runCheck freshFlags envB).msg = "" ∧
      (runCheck freshFlags envB).flags = ⟨FileStatus.found, FileStatus.found⟩ := by
  decide

theorem scenarioD_snapshot :
    (gatherState freshFlags envD).state.OptionalPlugs =
      [("camera", { Required := false, Reason := "", Connected := false }),
       ("net", { Required := false, Reason := "", Connected := false })] := by
  decide

/-! ## The claims -/

/-- C1, evaluated on the code: with the WarningsDisabled marker present and the
AlreadyWarned marker absent, `gatherState` returns at once with `AlreadyWarned`
left at its zero value, and `setWarnFlags` then creates the AlreadyWarned
marker: the flag store after the run differs from the flag store before it. -/
theorem C1_disabled_run_creates_alreadyWarned :
    (runCheck ⟨FileStatus.notExist, FileStatus.found⟩ envA).state =
        { WarningsDisabled := true, AlreadyWarned := false,
          OptionalPlugs := [], RequiredPlugs := [] } ∧
      (runCheck ⟨FileStatus.notExist, FileStatus.found⟩ envA).trace =
        [Event.stat File.warningsDisabled, Event.create File.alreadyWarned] ∧
      (runCheck ⟨FileStatus.notExist, FileStatus.found⟩ envA).flags =
        ⟨FileStatus.found, FileStatus.found⟩ ∧
      (runCheck ⟨FileStatus.notExist, FileStatus.found⟩ envA).flags ≠
        ⟨FileStatus.notExist, FileStatus.found⟩ := by
  decide

/-- C2: the snapshot of a successful `gatherState` has disjoint key sets: no
name is a key of both `RequiredPlugs` and `OptionalPlugs`; and a name declared
required in `plugs.yaml` is never a key of `OptionalPlugs`, whatever the
manifest references. -/
theorem C2_required_optional_disjoint (flags : FlagStore) (env : Env)
    (h : (gatherState flags env).err = none) :
    (∀ n, n ∈ PlugMap.keys (gatherState flags env).state.RequiredPlugs →
        n ∉ PlugMap.keys (gatherState flags env).state.OptionalPlugs) ∧
      (∀ plugs yamlErr n p, env.plugsYamlStat = FileStatus.found →
        env.plugsYaml = PlugsYamlFile.decoded plugs yamlErr →
        (n, p) ∈ plugs → p.Required = true →
        n ∉ PlugMap.keys (gatherState flags env).state.OptionalPlugs) := by
  cases hd : flags.warningsDisabled with
  | found =>
    rw [gatherState_disabled flags env hd]
    simp [warningState.zero, PlugMap.keys]
  | failure e =>
    rw [gatherState_statFailure flags env e hd] at h
    simp at h
  | notExist =>
    obtain ⟨warned, plugsYamlExists, requiredPlugs, optionalPlugs, optionalPlugs2,
      requiredPlugs3, optionalPlugs3, trace3, optionalPlugs4, trace4,
      _, hP, hL, _, hR, hO, hG⟩ := gatherState_ok flags env hd h
    have hR1 : (checkRequired env.snapctl requiredPlugs requiredPlugs optionalPlugs2
        (loadTrace plugsYamlExists warned)).2.2.1 = none := by rw [hR]
    have hO1 : (checkOptional env.snapctl optionalPlugs3 optionalPlugs3 trace3).2.1 = none := by
      rw [hO]
    have hopt : ∀ n, n ∈ PlugMap.keys optionalPlugs4 →
        n ∈ PlugMap.keys optionalPlugs2 ∧ n ∉ PlugMap.keys requiredPlugs := by
      intro n hn
      have h1 := (checkOptional_keys env.snapctl optionalPlugs3 optionalPlugs3 trace3 hO1 n).mp
        (by rw [hO]; exact hn)
      have h2 : n ∈ PlugMap.keys optionalPlugs3 := h1.elim id id
      have h3 := (checkRequired_optional_keys env.snapctl requiredPlugs requiredPlugs
        optionalPlugs2 _ hR1 n).mp (by rw [hR]; exact h2)
      exact h3
    have hreq : ∀ n, n ∈ PlugMap.keys requiredPlugs3 ↔ n ∈ PlugMap.keys requiredPlugs := by
      intro n
      have h1 := checkRequired_required_keys env.snapctl requiredPlugs requiredPlugs
        optionalPlugs2 _ hR1 n
      rw [hR] at h1
      simpa using h1
    rw [hG]
    refine ⟨fun n hn hn2 => (hopt n hn2).2 ((hreq n).mp hn), ?_⟩
    intro plugs yamlErr n p hstat hfile hmem hp hn
    refine (hopt n hn).2 ?_
    rw [hstat] at hP
    have hpe : plugsYamlExists = true := by
      simp [checkFileFlag] at hP
      exact hP
    rw [hpe, hfile] at hL
    simp only [if_true, loadPlugsYaml, Prod.mk.injEq] at hL
    rw [← hL.1]
    exact (partitionPlugs_keys_required plugs [] [] n).mpr (Or.inr ⟨p, hmem, hp⟩)

theorem C2_required_optional_disjoint_witness :
    (gatherState freshFlags envA).err = none ∧
      ((∀ n, n ∈ PlugMap.keys (gatherState freshFlags envA).state.RequiredPlugs →
          n ∉ PlugMap.keys (gatherState freshFlags envA).state.OptionalPlugs) ∧
        (∀ plugs yamlErr n p, envA.plugsYamlStat = FileStatus.found →
          envA.plugsYaml = PlugsYamlFile.decoded plugs yamlErr →
          (n, p) ∈ plugs → p.Required = true →
          n ∉ PlugMap.keys (gatherState freshFlags envA).state.OptionalPlugs)) :=
  ⟨by decide, C2_required_optional_disjoint freshFlags envA (by decide)⟩

/-- C3: on a state with `WarningsDisabled` false, and with marker creation
succeeding, `setWarnFlags` creates the WarningsDisabled marker if and only if
every entry of `RequiredPlugs` is connected; the marker then exists, and when
some required entry is not connected the marker is left as it was. -/
theorem C3_disable_iff_all_required_connected (flags : FlagStore)
    (createErr : File → Option Error) (state : warningState)
    (hd : state.WarningsDisabled = false)
    (hc1 : createErr File.alreadyWarned = none)
    (hc2 : createErr File.warningsDisabled = none) :
    (Event.create File.warningsDisabled ∈ (setWarnFlags flags createErr state).trace ↔
        ∀ e ∈ state.RequiredPlugs, e.2.Connected = true) ∧
      ((∀ e ∈ state.RequiredPlugs, e.2.Connected = true) →
        (setWarnFlags flags createErr state).flags.warningsDisabled = FileStatus.found) ∧
      ((∃ e ∈ state.RequiredPlugs, e.2.Connected = false) →
        (setWarnFlags flags createErr state).flags.warningsDisabled = flags.warningsDisabled) := by
  rw [← anyDisconnected_eq_false_iff, ← anyDisconnected_eq_true_iff]
  unfold setWarnFlags
  cases state.AlreadyWarned <;> cases hany : anyDisconnected state.RequiredPlugs <;>
    simp [hd, hc1, hc2, FlagStore.created]

theorem C3_disable_iff_all_required_connected_witness :
    (gatherState freshFlags envA).state.WarningsDisabled = false ∧
      envA.createErr File.alreadyWarned = none ∧
      envA.createErr File.warningsDisabled = none ∧
      ((Event.create File.warningsDisabled ∈
          (setWarnFlags freshFlags envA.createErr (gatherState freshFlags envA).state).trace ↔
          ∀ e ∈ (gatherState freshFlags envA).state.RequiredPlugs, e.2.Connected = true) ∧
        ((∀ e ∈ (gatherState freshFlags envA).state.RequiredPlugs, e.2.Connected = true) →
          (setWarnFlags freshFlags envA.createErr
            (gatherState freshFlags envA).state).flags.warningsDisabled = FileStatus.found) ∧
        ((∃ e ∈ (gatherState freshFlags envA).state.RequiredPlugs, e.2.Connected = false) →
          (setWarnFlags freshFlags envA.createErr
            (gatherState freshFlags envA).state).flags.warningsDisabled =
              freshFlags.warningsDisabled)) :=
  ⟨by decide, rfl, rfl,
    C3_disable_iff_all_required_connected freshFlags envA.createErr
      (gatherState freshFlags envA).state (by decide) rfl rfl⟩

/-- C4, as stated, fails: on the snapshot of scenario D (no required plug at
all, `WarningsDisabled` false) and a flag store without the WarningsDisabled
marker, `setWarnFlags` creates the marker. -/
theorem C4_counterexample :
    (gatherState freshFlags envD).state.WarningsDisabled = false ∧
      (gatherState freshFlags envD).state.RequiredPlugs = [] ∧
      freshFlags.warningsDisabled = FileStatus.notExist ∧
      Event.create File.warningsDisabled ∈
        (setWarnFlags freshFlags envD.createErr (gatherState freshFlags envD).state).trace ∧
      (setWarnFlags freshFlags envD.createErr
        (gatherState freshFlags envD).state).flags.warningsDisabled = FileStatus.found := by
  decide

/-- C4, amended: on a state with `WarningsDisabled` false whose `RequiredPlugs`
is empty, `setWarnFlags` (marker creation succeeding) creates the
WarningsDisabled marker, which exists after the call. -/
theorem C4_empty_required_disables (flags : FlagStore)
    (createErr : File → Option Error) (state : warningState)
    (hd : state.WarningsDisabled = false) (hr : state.RequiredPlugs = [])
    (hc1 : createErr File.alreadyWarned = none)
    (hc2 : createErr File.warningsDisabled = none) :
    Event.create File.warningsDisabled ∈ (setWarnFlags flags createErr state).trace ∧
      (setWarnFlags flags createErr state).flags.warningsDisabled = FileStatus.found := by
  unfold setWarnFlags
  cases state.AlreadyWarned <;>
    simp [hd, hr, hc1, hc2, FlagStore.created, anyDisconnected]

theorem C4_empty_required_disables_witness :
    (gatherState freshFlags envD).state.WarningsDisabled = false ∧
      (gatherState freshFlags envD).state.RequiredPlugs = [] ∧
      envD.createErr File.alreadyWarned = none ∧
      envD.createErr File.warningsDisabled = none ∧
      (Event.create File.warningsDisabled ∈
          (setWarnFlags freshFlags envD.createErr (gatherState freshFlags envD).state).trace ∧
        (setWarnFlags freshFlags envD.createErr
          (gatherState freshFlags envD).state).flags.warningsDisabled = FileStatus.found) :=
  ⟨by decide, by decide, rfl, rfl,
    C4_empty_required_disables freshFlags envD.createErr (gatherState freshFlags envD).state
      (by decide) (by decide) rfl rfl⟩

/-- C5: when the WarningsDisabled marker exists, `gatherState` returns a
snapshot with `WarningsDisabled` true after its single `os.Stat` call: it loads
neither `plugs.yaml` nor the manifest and queries the oracle for no plug, and
`getWarnMessage` of that snapshot is the empty string. -/
theorem C5_disabled_short_circuit (flags : FlagStore) (env : Env)
    (h : flags.warningsDisabled = FileStatus.found) :
    (gatherState flags env).state.WarningsDisabled = true ∧
      (gatherState flags env).err = none ∧
      (gatherState flags env).trace = [Event.stat File.warningsDisabled] ∧
      (∀ ev ∈ (gatherState flags env).trace,
        ev.isQuery = false ∧ ev.isOpenOf File.plugsYaml = false ∧
          ev.isOpenOf File.snapYaml = false) ∧
      getWarnMessage (gatherState flags env).state = "" := by
  rw [gatherState_disabled flags env h]
  simp [getWarnMessage, Event.isQuery, Event.isOpenOf]

theorem C5_disabled_short_circuit_witness :
    (FlagStore.mk FileStatus.found FileStatus.found).warningsDisabled = FileStatus.found ∧
      ((gatherState ⟨FileStatus.found, FileStatus.found⟩ envA).state.WarningsDisabled = true ∧
        (gatherState ⟨FileStatus.found, FileStatus.found⟩ envA).err = none ∧
        (gatherState ⟨FileStatus.found, FileStatus.found⟩ envA).trace =
          [Event.stat File.warningsDisabled] ∧
        (∀ ev ∈ (gatherState ⟨FileStatus.found, FileStatus.found⟩ envA).trace,
          ev.isQuery = false ∧ ev.isOpenOf File.plugsYaml = false ∧
            ev.isOpenOf File.snapYaml = false) ∧
        getWarnMessage (gatherState ⟨FileStatus.found, FileStatus.found⟩ envA).state = "") :=
  ⟨rfl, C5_disabled_short_circuit ⟨FileStatus.found, FileStatus.found⟩ envA rfl⟩

/-- C6: a run that starts with the AlreadyWarned marker absent leaves it
present, whatever the declarations, the oracle answers and the state of the
WarningsDisabled marker, provided the creation of the marker succeeds. -/
theorem C6_alreadyWarned_created (flags : FlagStore) (env : Env)
    (h : flags.alreadyWarned = FileStatus.notExist)
    (hc : env.createErr File.alreadyWarned = none) :
    (runCheck flags env).flags.alreadyWarned = FileStatus.found ∧
      Event.create File.alreadyWarned ∈ (runCheck flags env).trace := by
  have hw : (gatherState flags env).state.AlreadyWarned = false := by
    cases hx : (gatherState flags env).state.AlreadyWarned
    · rfl
    · have := gatherState_alreadyWarned flags env hx
      rw [h] at this
      exact absurd this (by simp)
  have hs := setWarnFlags_creates_alreadyWarned flags env.createErr
    (gatherState flags env).state hw hc
  exact ⟨hs.1, List.mem_append_right _ hs.2⟩

theorem C6_alreadyWarned_created_witness :
    freshFlags.alreadyWarned = FileStatus.notExist ∧
      envA.createErr File.alreadyWarned = none ∧
      ((runCheck freshFlags envA).flags.alreadyWarned = FileStatus.found ∧
        Event.create File.alreadyWarned ∈ (runCheck freshFlags envA).trace) :=
  ⟨rfl, rfl, C6_alreadyWarned_created freshFlags envA rfl rfl⟩

/-- C7: when the WarningsDisabled marker is absent and the AlreadyWarned marker
exists, the snapshot that `gatherState` returns has an empty `OptionalPlugs`
(on success `AlreadyWarned` is true in it and the optional declarations of
`plugs.yaml` are discarded), and the manifest is never opened. -/
theorem C7_warned_run_has_no_optional (flags : FlagStore) (env : Env)
    (hd : flags.warningsDisabled = FileStatus.notExist)
    (ha : flags.alreadyWarned = FileStatus.found) :
    (gatherState flags env).state.OptionalPlugs = [] ∧
      ((gatherState flags env).err = none →
        (gatherState flags env).state.AlreadyWarned = true) ∧
      (∀ ev ∈ (gatherState flags env).trace, ev.isOpenOf File.snapYaml = false) := by
  refine ⟨?_, ?_, ?_⟩
  · cases herr : (gatherState flags env).err with
    | some e => exact (gatherState_failed flags env e herr).1
    | none =>
      obtain ⟨warned, plugsYamlExists, requiredPlugs, optionalPlugs, optionalPlugs2,
        requiredPlugs3, optionalPlugs3, trace3, optionalPlugs4, trace4,
        hW, _, _, hS, hR, hO, hG⟩ := gatherState_ok flags env hd herr
      rw [ha] at hW
      have hw : warned = true := by
        simp [checkFileFlag] at hW
        exact hW
      subst hw
      simp at hS
      subst hS
      have h3 : optionalPlugs3 = [] := by
        refine List.eq_nil_iff_forall_not_mem.mpr fun e he => ?_
        have := checkRequired_optional_mem env.snapctl requiredPlugs requiredPlugs []
          (loadTrace plugsYamlExists true) e (by rw [hR]; exact he)
        simp at this
      subst h3
      simp [checkOptional] at hO
      rw [hG]
      exact hO.1
  · intro herr
    obtain ⟨warned, plugsYamlExists, requiredPlugs, optionalPlugs, optionalPlugs2,
      requiredPlugs3, optionalPlugs3, trace3, optionalPlugs4, trace4,
      hW, _, _, _, _, _, hG⟩ := gatherState_ok flags env hd herr
    rw [ha] at hW
    rw [hG]
    simp [checkFileFlag] at hW
    exact hW
  · intro ev hev
    rcases gatherState_trace flags env ev hev with h | h | ⟨_, _, h⟩
    · cases ev <;> simp [Event.isQuery] at h
      rfl
    · simp at h
      rcases h with h | h | h | h <;> rw [h] <;> rfl
    · rw [ha] at h
      exact absurd h (by simp)

theorem C7_warned_run_has_no_optional_witness :
    (FlagStore.mk FileStatus.found FileStatus.notExist).warningsDisabled = FileStatus.notExist ∧
      (FlagStore.mk FileStatus.found FileStatus.notExist).alreadyWarned = FileStatus.found ∧
      ((gatherState ⟨FileStatus.found, FileStatus.notExist⟩ envE).state.OptionalPlugs = [] ∧
        ((gatherState ⟨FileStatus.found, FileStatus.notExist⟩ envE).err = none →
          (gatherState ⟨FileStatus.found, FileStatus.notExist⟩ envE).state.AlreadyWarned = true) ∧
        (∀ ev ∈ (gatherState ⟨FileStatus.found, FileStatus.notExist⟩ envE).trace,
          ev.isOpenOf File.snapYaml = false)) :=
  ⟨rfl, rfl, C7_warned_run_has_no_optional ⟨FileStatus.found, FileStatus.notExist⟩ envE rfl rfl⟩

/-- C8: no run removes a marker; hence once the WarningsDisabled marker exists
it exists after every sequence of later runs, and each later run prints the
empty message and queries the oracle for no plug, whatever its declarations
and oracle answers are. -/
theorem C8_disabled_is_permanent (flags : FlagStore) (envs : List Env) (env : Env)
    (h : flags.warningsDisabled = FileStatus.found) :
    (∀ (f : FlagStore) (e : Env),
        (f.alreadyWarned = FileStatus.found →
          (runCheck f e).flags.alreadyWarned = FileStatus.found) ∧
        (f.warningsDisabled = FileStatus.found →
          (runCheck f e).flags.warningsDisabled = FileStatus.found)) ∧
      (runAll flags envs).warningsDisabled = FileStatus.found ∧
      (runCheck (runAll flags envs) env).msg = "" ∧
      (∀ ev ∈ (runCheck (runAll flags envs) env).trace, ev.isQuery = false) := by
  have hk := runAll_keeps_warningsDisabled envs flags h
  refine ⟨runCheck_keeps_markers, hk, ?_, ?_⟩
  · show getWarnMessage (gatherState (runAll flags envs) env).state = ""
    rw [gatherState_disabled _ env hk]
    simp [getWarnMessage]
  · intro ev hev
    have hev2 : ev ∈ (gatherState (runAll flags envs) env).trace ++
        (setWarnFlags (runAll flags envs) env.createErr
          (gatherState (runAll flags envs) env).state).trace := hev
    rcases List.mem_append.mp hev2 with h1 | h1
    · rw [gatherState_disabled _ env hk] at h1
      simp at h1
      rw [h1]
      rfl
    · rcases setWarnFlags_trace _ _ _ ev h1 with h2 | h2 <;> rw [h2] <;> rfl

theorem C8_disabled_is_permanent_witness :
    (FlagStore.mk FileStatus.found FileStatus.found).warningsDisabled = FileStatus.found ∧
      ((∀ (f : FlagStore) (e : Env),
          (f.alreadyWarned = FileStatus.found →
            (runCheck f e).flags.alreadyWarned = FileStatus.found) ∧
          (f.warningsDisabled = FileStatus.found →
            (runCheck f e).flags.warningsDisabled = FileStatus.found)) ∧
        (runAll ⟨FileStatus.found, FileStatus.found⟩ [envB, envD]).warningsDisabled =
          FileStatus.found ∧
        (runCheck (runAll ⟨FileStatus.found, FileStatus.found⟩ [envB, envD]) envA).msg = "" ∧
        (∀ ev ∈ (runCheck (runAll ⟨FileStatus.found, FileStatus.found⟩ [envB, envD]) envA).trace,
          ev.isQuery = false)) :=
  ⟨rfl, C8_disabled_is_permanent ⟨FileStatus.found, FileStatus.found⟩ [envB, envD] envA rfl⟩

/-- C9: with both markers absent, the keys of `OptionalPlugs` in the snapshot
of a successful `gatherState` are exactly the names declared optional in
`plugs.yaml` or referenced by an entry point of the manifest, minus the names
declared required; a name that only the manifest references is there with
`Required` false and `Reason` empty; and a name declared optional (the keys of
the declaration map being distinct, as the keys of a Go map are) keeps its
declared `Reason`, whether or not the manifest references it. -/
theorem C9_optional_keys (flags : FlagStore) (env : Env)
    (hd : flags.warningsDisabled = FileStatus.notExist)
    (ha : flags.alreadyWarned = FileStatus.notExist)
    (h : (gatherState flags env).err = none) :
    (∀ n, n ∈ PlugMap.keys (gatherState flags env).state.OptionalPlugs ↔
        ((∃ p, (n, p) ∈ declaredPlugs env ∧ p.Required = false) ∨ n ∈ manifestNames env) ∧
          ¬ ∃ p, (n, p) ∈ declaredPlugs env ∧ p.Required = true) ∧
      (∀ n, n ∈ manifestNames env → n ∉ PlugMap.keys (declaredPlugs env) →
        ∃ c, PlugMap.get? (gatherState flags env).state.OptionalPlugs n =
          some { Required := false, Reason := "", Connected := c }) ∧
      ((PlugMap.keys (declaredPlugs env)).Nodup →
        ∀ n p, (n, p) ∈ declaredPlugs env → p.Required = false →
          ∃ v, PlugMap.get? (gatherState flags env).state.OptionalPlugs n = some v ∧
            v.Reason = p.Reason ∧ v.Required = false) := by
  obtain ⟨requiredPlugs3, optionalPlugs3, trace3, optionalPlugs4, trace4, hR, hO,
    ⟨snap, hsnap⟩, hG⟩ := gatherState_fresh_ok flags env hd ha h
  rw [hsnap] at hR
  simp only [] at hR
  have hR1 : (checkRequired env.snapctl (partitionPlugs (declaredPlugs env) [] []).1
      (partitionPlugs (declaredPlugs env) [] []).1
      (addSnapPlugs snap.Apps (partitionPlugs (declaredPlugs env) [] []).2)
      (loadTrace (checkFileFlag env.plugsYamlStat).1 false)).2.2.1 = none := by rw [hR]
  have hO1 : (checkOptional env.snapctl optionalPlugs3 optionalPlugs3 trace3).2.1 = none := by
    rw [hO]
  have hman : ∀ n, n ∈ manifestNames env ↔ ∃ app, app ∈ snap.Apps ∧ n ∈ app.2 := by
    intro n
    simp only [manifestNames, hsnap]
    exact mem_manifestPlugs snap.Apps n
  -- the keys, stage by stage
  have k4 : ∀ n, n ∈ PlugMap.keys optionalPlugs4 ↔ n ∈ PlugMap.keys optionalPlugs3 := by
    intro n
    have := checkOptional_keys env.snapctl optionalPlugs3 optionalPlugs3 trace3 hO1 n
    rw [hO] at this
    simpa using this
  have k3 : ∀ n, n ∈ PlugMap.keys optionalPlugs3 ↔
      n ∈ PlugMap.keys (addSnapPlugs snap.Apps (partitionPlugs (declaredPlugs env) [] []).2) ∧
        n ∉ PlugMap.keys (partitionPlugs (declaredPlugs env) [] []).1 := by
    intro n
    have := checkRequired_optional_keys env.snapctl _ _ _ _ hR1 n
    rw [hR] at this
    exact this
  have kreq : ∀ n, n ∈ PlugMap.keys (partitionPlugs (declaredPlugs env) [] []).1 ↔
      ∃ p, (n, p) ∈ declaredPlugs env ∧ p.Required = true := by
    intro n
    rw [partitionPlugs_keys_required]
    simp [PlugMap.keys]
  have kopt : ∀ n, n ∈ PlugMap.keys (partitionPlugs (declaredPlugs env) [] []).2 ↔
      ∃ p, (n, p) ∈ declaredPlugs env ∧ p.Required = false := by
    intro n
    rw [partitionPlugs_keys_optional]
    simp [PlugMap.keys]
  have keys : ∀ n, n ∈ PlugMap.keys optionalPlugs4 ↔
      ((∃ p, (n, p) ∈ declaredPlugs env ∧ p.Required = false) ∨ n ∈ manifestNames env) ∧
        ¬ ∃ p, (n, p) ∈ declaredPlugs env ∧ p.Required = true := by
    intro n
    rw [k4, k3, addSnapPlugs_keys, kopt, kreq, hman]
  -- where the value of a key comes from
  have origin : ∀ n, n ∈ PlugMap.keys optionalPlugs4 →
      ∃ v q, PlugMap.get? optionalPlugs4 n = some v ∧
        q.Required = v.Required ∧ q.Reason = v.Reason ∧
        ((n, q) ∈ declaredPlugs env ∨
          (q = { Required := false, Reason := "", Connected := false } ∧
            n ∉ PlugMap.keys (partitionPlugs (declaredPlugs env) [] []).2)) := by
    intro n hn
    have hsome := (PlugMap.get?_isSome_iff optionalPlugs4 n).mpr hn
    obtain ⟨v, hv⟩ := Option.isSome_iff_exists.mp hsome
    have hmem := PlugMap.mem_of_get? optionalPlugs4 n v hv
    obtain ⟨q, hq1, hq2, hq3⟩ := checkOptional_mem env.snapctl optionalPlugs3 optionalPlugs3
      trace3 (n, v) (by rw [hO]; exact hmem)
    have hq4 : (n, q) ∈ optionalPlugs3 := hq3.elim id id
    have hq5 := checkRequired_optional_mem env.snapctl _ _ _ _ (n, q) (by rw [hR]; exact hq4)
    refine ⟨v, q, hv, hq1, hq2, ?_⟩
    rcases addSnapPlugs_mem _ _ _ hq5 with h6 | ⟨h6, h7⟩
    · rcases partitionPlugs_mem_optional _ _ _ _ h6 with h8 | h8
      · simp at h8
      · exact Or.inl h8
    · exact Or.inr ⟨h6, h7⟩
  rw [hG]
  refine ⟨keys, ?_, ?_⟩
  · intro n hn hnd
    have hnk : n ∈ PlugMap.keys optionalPlugs4 := by
      refine (keys n).mpr ⟨Or.inr hn, ?_⟩
      rintro ⟨p, hp, _⟩
      exact hnd ((PlugMap.mem_keys_iff _ _).mpr ⟨p, hp⟩)
    obtain ⟨v, q, hv, hq1, hq2, hq3⟩ := origin n hnk
    rcases hq3 with hq3 | ⟨hq3, _⟩
    · exact absurd ((PlugMap.mem_keys_iff _ _).mpr ⟨q, hq3⟩) hnd
    · refine ⟨v.Connected, ?_⟩
      show PlugMap.get? optionalPlugs4 n = _
      rw [hv]
      subst hq3
      obtain ⟨r, s, c⟩ := v
      simp only at hq1 hq2
      rw [← hq1, ← hq2]
  · intro hnd n p hp hpr
    have hnk : n ∈ PlugMap.keys optionalPlugs4 := by
      refine (keys n).mpr ⟨Or.inl ⟨p, hp, hpr⟩, ?_⟩
      rintro ⟨p2, hp2, hpr2⟩
      have := PlugMap.eq_of_mem_of_nodup _ hnd n p p2 hp hp2
      rw [this, hpr2] at hpr
      exact absurd hpr (by decide)
    obtain ⟨v, q, hv, hq1, hq2, hq3⟩ := origin n hnk
    refine ⟨v, hv, ?_, ?_⟩
    · rcases hq3 with hq3 | ⟨_, hq3⟩
      · rw [← hq2, PlugMap.eq_of_mem_of_nodup _ hnd n q p hq3 hp]
      · exact absurd ((kopt n).mpr ⟨p, hp, hpr⟩) hq3
    · rcases hq3 with hq3 | ⟨_, hq3⟩
      · rw [← hq1, PlugMap.eq_of_mem_of_nodup _ hnd n q p hq3 hp]
        exact hpr
      · exact absurd ((kopt n).mpr ⟨p, hp, hpr⟩) hq3

theorem C9_optional_keys_witness :
    freshFlags.warningsDisabled = FileStatus.notExist ∧
      freshFlags.alreadyWarned = FileStatus.notExist ∧
      (gatherState freshFlags envE).err = none ∧
      ((∀ n, n ∈ PlugMap.keys (gatherState freshFlags envE).state.OptionalPlugs ↔
          ((∃ p, (n, p) ∈ declaredPlugs envE ∧ p.Required = false) ∨ n ∈ manifestNames envE) ∧
            ¬ ∃ p, (n, p) ∈ declaredPlugs envE ∧ p.Required = true) ∧
        (∀ n, n ∈ manifestNames envE → n ∉ PlugMap.keys (declaredPlugs envE) →
          ∃ c, PlugMap.get? (gatherState freshFlags envE).state.OptionalPlugs n =
            some { Required := false, Reason := "", Connected := c }) ∧
        ((PlugMap.keys (declaredPlugs envE)).Nodup →
          ∀ n p, (n, p) ∈ declaredPlugs envE → p.Required = false →
            ∃ v, PlugMap.get? (gatherState freshFlags envE).state.OptionalPlugs n = some v ∧
              v.Reason = p.Reason ∧ v.Required = false)) :=
  ⟨rfl, rfl, by decide, C9_optional_keys freshFlags envE rfl rfl (by decide)⟩

theorem scenarioE_snapshot :
    (gatherState freshFlags envE).state.OptionalPlugs =
        [("home", { Required := false, Reason := "save files", Connected := true }),
         ("camera", { Required := false, Reason := "", Connected := false })] ∧
      (PlugMap.keys (declaredPlugs envE)).Nodup := by
  decide

/-- C10, as stated, fails: in scenario A (one required plug not connected, the
only optional plug connected) the message does not begin with the header line
of the required plugs: its first line is empty. -/
theorem C10_counterexample :
    (gatherState freshFlags envA).state.WarningsDisabled = false ∧
      (∃ e ∈ (gatherState freshFlags envA).state.RequiredPlugs, e.2.Connected = false) ∧
      (∀ e ∈ (gatherState freshFlags envA).state.OptionalPlugs, e.2.Connected = true) ∧
      ¬ ((MSG_REQUIRED_PLUGS ++ "\n").toList <+:
        (getWarnMessage (gatherState freshFlags envA).state).toList) ∧
      getWarnMessage (gatherState freshFlags envA).state =
        "\nThe follow interfaces must be connected for app to work properly:\n\tnet\t\t- needed for sync\n\n\n" := by
  decide

/-- C10, amended: for a snapshot with `WarningsDisabled` false, at least one
required plug not connected and no optional plug not connected, the message
of `getWarnMessage` begins with an empty line, followed by the header line of
the required plugs, the lines of the required plugs that are not connected
and two newlines. -/
theorem C10_message_starts_with_empty_line (state : warningState)
    (hd : state.WarningsDisabled = false)
    (hreq : ∃ e ∈ state.RequiredPlugs, e.2.Connected = false)
    (hopt : ∀ e ∈ state.OptionalPlugs, e.2.Connected = true) :
    getWarnMessage state =
        "\n" ++ MSG_REQUIRED_PLUGS ++ "\n" ++ appendDisconnected state.RequiredPlugs "" ++ "\n\n" ∧
      ("\n" ++ MSG_REQUIRED_PLUGS ++ "\n").toList <+: (getWarnMessage state).toList := by
  have h1 : appendDisconnected state.OptionalPlugs "" = "" :=
    appendDisconnected_all_connected _ _ hopt
  have h2 : appendDisconnected state.RequiredPlugs "" ≠ "" :=
    String.ne_empty_of_length_pos _
      (Nat.lt_of_le_of_lt (Nat.zero_le _) (appendDisconnected_length_lt _ "" hreq))
  have h3 : "\n" ++ MSG_REQUIRED_PLUGS ++ "\n" ++ appendDisconnected state.RequiredPlugs "" ≠ "" := by
    refine String.ne_empty_of_length_pos _ ?_
    have h : 0 < ("\n" : String).length := by decide
    simp only [String.length_append]
    omega
  have hmsg : getWarnMessage state =
      "\n" ++ MSG_REQUIRED_PLUGS ++ "\n" ++ appendDisconnected state.RequiredPlugs "" ++ "\n\n" := by
    unfold getWarnMessage
    cases state.AlreadyWarned <;> simp [hd, h1, h2, h3]
  refine ⟨hmsg, ?_⟩
  rw [hmsg]
  simp only [String.toList, String.data_append, List.append_assoc]
  exact ⟨_, rfl⟩

theorem C10_message_starts_with_empty_line_witness :
    (gatherState freshFlags envA).state.WarningsDisabled = false ∧
      (∃ e ∈ (gatherState freshFlags envA).state.RequiredPlugs, e.2.Connected = false) ∧
      (∀ e ∈ (gatherState freshFlags envA).state.OptionalPlugs, e.2.Connected = true) ∧
      (getWarnMessage (gatherState freshFlags envA).state =
          "\n" ++ MSG_REQUIRED_PLUGS ++ "\n" ++
            appendDisconnected (gatherState freshFlags envA).state.RequiredPlugs "" ++ "\n\n" ∧
        ("\n" ++ MSG_REQUIRED_PLUGS ++ "\n").toList <+:
          (getWarnMessage (gatherState freshFlags envA).state).toList) :=
  ⟨by decide, by decide, by decide,
    C10_message_starts_with_empty_line (gatherState freshFlags envA).state
      (by decide) (by decide) (by decide)⟩

/-- C11: connected plugs never influence the output: `getWarnMessage` returns
the same string for a snapshot and for the snapshot from which every entry
with `Connected` true has been removed, in `RequiredPlugs` and in
`OptionalPlugs`. -/
theorem C11_connected_plugs_do_not_matter (state : warningState) :
    getWarnMessage (dropConnected state) = getWarnMessage state := by
  unfold getWarnMessage dropConnected
  simp only [appendDisconnected_filter]

/-- C12, as stated, fails: a required plug that is not connected and whose
reason spells out the header of the optional plugs puts that header line into
the message, although no optional plug is disconnected. -/
theorem C12_counterexample :
    (gatherState freshFlags envHeaderInReason).state.WarningsDisabled = false ∧
      (gatherState freshFlags envHeaderInReason).state.RequiredPlugs =
        [("net", { Required := true, Reason := "see below\n" ++ MSG_OPTIONAL_PLUGS,
                   Connected := false })] ∧
      (∀ o ∈ (gatherState freshFlags envHeaderInReason).state.OptionalPlugs,
        o.2.Connected = true) ∧
      getWarnMessage (gatherState freshFlags envHeaderInReason).state =
        "\nThe follow interfaces must be connected for app to work properly:\n\tnet\t\t- see below\nConsider connecting the following interfaces:\n\n\n" ∧
      containsText (getWarnMessage (gatherState freshFlags envHeaderInReason).state)
        (MSG_OPTIONAL_PLUGS ++ "\n") :=
  ⟨by decide, by decide, by decide, by decide,
    "\nThe follow interfaces must be connected for app to work properly:\n\tnet\t\t- see below\n",
    "\n\n", by decide⟩

/-- C12, amended: for a snapshot with `WarningsDisabled` false and an entry of
`RequiredPlugs` that is not connected, the message contains the header line of
the required plugs and the line `"\t<name>\t\t- <reason>\n"` of that entry;
and when no optional plug is disconnected no optional section is emitted: the
optional section is empty, the message is the empty line, the required header,
the required lines and two newlines, and the header of the optional plugs
occurs in it only inside the name or the reason of a required plug that is
not connected. -/
theorem C12_required_section_in_message (state : warningState)
    (hd : state.WarningsDisabled = false)
    (e : String × PlugStatus) (he : e ∈ state.RequiredPlugs) (hc : e.2.Connected = false) :
    containsText (getWarnMessage state) (MSG_REQUIRED_PLUGS ++ "\n") ∧
      containsText (getWarnMessage state)
        ("\t" ++ e.1 ++ "\t\t- " ++ e.2.Reason ++ "\n") ∧
      ((∀ o ∈ state.OptionalPlugs, o.2.Connected = true) →
        optionalSection state = "" ∧
        getWarnMessage state =
          "\n" ++ MSG_REQUIRED_PLUGS ++ "\n" ++
            appendDisconnected state.RequiredPlugs "" ++ "\n\n" ∧
        (containsText (getWarnMessage state) MSG_OPTIONAL_PLUGS →
          ∃ r ∈ state.RequiredPlugs, r.2.Connected = false ∧
            (containsText r.1 MSG_OPTIONAL_PLUGS ∨
              containsText r.2.Reason MSG_OPTIONAL_PLUGS))) := by
  have hr : appendDisconnected state.RequiredPlugs "" ≠ "" := fun h =>
    absurd ((appendDisconnected_empty_iff _).mp h e he) (by rw [hc]; decide)
  have hmsg := getWarnMessage_eq state hd
  simp only [hr, if_false] at hmsg
  refine ⟨?_, ?_, ?_⟩
  · refine ⟨optionalSection state ++ "\n",
      appendDisconnected state.RequiredPlugs "" ++ "\n\n", ?_⟩
    rw [hmsg]
    simp only [String.append_assoc]
  · obtain ⟨pre, post, hpp⟩ := appendDisconnected_contains state.RequiredPlugs e he hc
    refine ⟨optionalSection state ++ "\n" ++ MSG_REQUIRED_PLUGS ++ "\n" ++ pre,
      post ++ "\n\n", ?_⟩
    rw [hmsg, hpp]
    simp only [plugLine, String.append_assoc]
  · intro hopt
    have ho : optionalSection state = "" := (optionalSection_empty_iff state).mpr (Or.inr hopt)
    rw [ho] at hmsg
    have hmsg2 : getWarnMessage state = "\n" ++ MSG_REQUIRED_PLUGS ++ "\n" ++
        appendDisconnected state.RequiredPlugs "" ++ "\n\n" := by
      rw [hmsg]
      simp
    refine ⟨ho, hmsg2, fun hcont => ?_⟩
    rw [hmsg2, containsText_iff_data] at hcont
    obtain ⟨r, hr1, hr2, hr3⟩ := infix_requiredSection state.RequiredPlugs hcont
    refine ⟨r, hr1, hr2, ?_⟩
    rcases hr3 with h1 | h1
    · exact Or.inl ((containsText_iff_data _ _).mpr h1)
    · exact Or.inr ((containsText_iff_data _ _).mpr h1)

theorem C12_required_section_in_message_witness :
    (gatherState freshFlags envA).state.WarningsDisabled = false ∧
      (("net", { Required := true, Reason := "needed for sync", Connected := false }) :
          String × PlugStatus) ∈ (gatherState freshFlags envA).state.RequiredPlugs ∧
      (containsText (getWarnMessage (gatherState freshFlags envA).state)
          (MSG_REQUIRED_PLUGS ++ "\n") ∧
        containsText (getWarnMessage (gatherState freshFlags envA).state)
          ("\t" ++ "net" ++ "\t\t- " ++ "needed for sync" ++ "\n") ∧
        ((∀ o ∈ (gatherState freshFlags envA).state.OptionalPlugs, o.2.Connected = true) →
          optionalSection (gatherState freshFlags envA).state = "" ∧
          getWarnMessage (gatherState freshFlags envA).state =
            "\n" ++ MSG_REQUIRED_PLUGS ++ "\n" ++
              appendDisconnected (gatherState freshFlags envA).state.RequiredPlugs "" ++ "\n\n" ∧
          (containsText (getWarnMessage (gatherState freshFlags envA).state)
              MSG_OPTIONAL_PLUGS →
            ∃ r ∈ (gatherState freshFlags envA).state.RequiredPlugs, r.2.Connected = false ∧
              (containsText r.1 MSG_OPTIONAL_PLUGS ∨
                containsText r.2.Reason MSG_OPTIONAL_PLUGS)))) :=
  ⟨by decide, by decide,
    C12_required_section_in_message (gatherState freshFlags envA).state (by decide)
      ("net", { Required := true, Reason := "needed for sync", Connected := false })
      (by decide) rfl⟩

/-- C14: for a snapshot with `WarningsDisabled` false, `getWarnMessage` returns
the empty string if and only if no entry of `RequiredPlugs` is disconnected and
`AlreadyWarned` is true or no entry of `OptionalPlugs` is disconnected; so the
message is empty whenever every plug of the snapshot is connected. -/
theorem C14_message_empty_iff (state : warningState)
    (hd : state.WarningsDisabled = false) :
    (getWarnMessage state = "" ↔
        (∀ e ∈ state.RequiredPlugs, e.2.Connected = true) ∧
          (state.AlreadyWarned = true ∨ ∀ e ∈ state.OptionalPlugs, e.2.Connected = true)) ∧
      ((∀ e ∈ state.RequiredPlugs, e.2.Connected = true) →
        (∀ e ∈ state.OptionalPlugs, e.2.Connected = true) → getWarnMessage state = "") := by
  have hn : ("\n\n" : String) ≠ "" := by decide
  have key : getWarnMessage state = "" ↔
      (∀ e ∈ state.RequiredPlugs, e.2.Connected = true) ∧
        (state.AlreadyWarned = true ∨ ∀ e ∈ state.OptionalPlugs, e.2.Connected = true) := by
    rw [getWarnMessage_eq state hd, ← appendDisconnected_empty_iff,
      ← optionalSection_empty_iff]
    by_cases hr : appendDisconnected state.RequiredPlugs "" = "" <;>
      by_cases ho : optionalSection state = "" <;>
      simp [hr, ho, hn, String.append_eq_empty_iff]
  exact ⟨key, fun h1 h2 => key.mpr ⟨h1, Or.inr h2⟩⟩

theorem C14_message_empty_iff_witness :
    (gatherState freshFlags envB).state.WarningsDisabled = false ∧
      ((getWarnMessage (gatherState freshFlags envB).state = "" ↔
          (∀ e ∈ (gatherState freshFlags envB).state.RequiredPlugs, e.2.Connected = true) ∧
            ((gatherState freshFlags envB).state.AlreadyWarned = true ∨
              ∀ e ∈ (gatherState freshFlags envB).state.OptionalPlugs, e.2.Connected = true)) ∧
        ((∀ e ∈ (gatherState freshFlags envB).state.RequiredPlugs, e.2.Connected = true) →
          (∀ e ∈ (gatherState freshFlags envB).state.OptionalPlugs, e.2.Connected = true) →
          getWarnMessage (gatherState freshFlags envB).state = "")) :=
  ⟨by decide, C14_message_empty_iff (gatherState freshFlags envB).state (by decide)⟩

/-- C13: optional plugs are warned about at most once: when a run whose
creation of the AlreadyWarned marker succeeds is followed by a second run on
the flag store it left, the snapshot of the second run has an empty
`OptionalPlugs` and its message is the message built from its required plugs
alone, whatever the manifest and `plugs.yaml` of the second run declare. -/
theorem C13_optional_warned_once (flags : FlagStore) (env1 env2 : Env)
    (hc : env1.createErr File.alreadyWarned = none) :
    (runCheck (runCheck flags env1).flags env2).state.OptionalPlugs = [] ∧
      (runCheck (runCheck flags env1).flags env2).msg =
        requiredOnlyMessage (runCheck (runCheck flags env1).flags env2).state.RequiredPlugs := by
  have ha := runCheck_alreadyWarned_found flags env1 hc
  have ho := gatherState_optional_nil_of_warned (runCheck flags env1).flags env2 ha
  refine ⟨ho, ?_⟩
  refine getWarnMessage_no_optional _ ho fun hd => ?_
  have hf := gatherState_warningsDisabled _ env2 hd
  show (gatherState (runCheck flags env1).flags env2).state.RequiredPlugs = []
  rw [gatherState_disabled _ env2 hf]
  rfl

theorem C13_optional_warned_once_witness :
    envA.createErr File.alreadyWarned = none ∧
      ((runCheck (runCheck freshFlags envA).flags envE).state.OptionalPlugs = [] ∧
        (runCheck (runCheck freshFlags envA).flags envE).msg =
          requiredOnlyMessage
            (runCheck (runCheck freshFlags envA).flags envE).state.RequiredPlugs) :=
  ⟨rfl, C13_optional_warned_once freshFlags envA envE rfl⟩

/-- C17: starting from a flag store with both markers absent, after any finite
sequence of runs, with arbitrary declarations, oracle answers and failures of
marker creation, the WarningsDisabled marker exists only if the AlreadyWarned
marker exists. -/
theorem C17_disabled_only_if_warned (envs : List Env) :
    (runAll freshFlags envs).warningsDisabled = FileStatus.found →
      (runAll freshFlags envs).alreadyWarned = FileStatus.found :=
  runAll_invariant envs freshFlags (fun h => absurd h (by decide))

theorem C17_disabled_only_if_warned_witness :
    (runAll freshFlags [envCreateFails, envA, envB]).warningsDisabled = FileStatus.found ∧
      (runAll freshFlags [envCreateFails, envA, envB]).alreadyWarned = FileStatus.found :=
  ⟨by decide, C17_disabled_only_if_warned [envCreateFails, envA, envB] (by decide)⟩

/-- C18: when `gatherState` fails (which it can only do with the
WarningsDisabled marker not found), the state that `main` passes on has empty `RequiredPlugs` and `OptionalPlugs`,
so `getWarnMessage` returns the empty string and `setWarnFlags` (marker
creation succeeding) creates the WarningsDisabled marker, which every later
run finds: each later run prints the empty message. -/
theorem C18_failed_check_disables_warnings (flags : FlagStore) (env : Env) (e : Error)
    (herr : (gatherState flags env).err = some e)
    (hc1 : env.createErr File.alreadyWarned = none)
    (hc2 : env.createErr File.warningsDisabled = none) :
    flags.warningsDisabled ≠ FileStatus.found ∧
      (runCheck flags env).state.RequiredPlugs = [] ∧
      (runCheck flags env).state.OptionalPlugs = [] ∧
      (runCheck flags env).msg = "" ∧
      Event.create File.warningsDisabled ∈ (runCheck flags env).trace ∧
      (runCheck flags env).flags.warningsDisabled = FileStatus.found ∧
      (∀ (envs : List Env) (env2 : Env),
        (runAll (runCheck flags env).flags envs).warningsDisabled = FileStatus.found ∧
          (runCheck (runAll (runCheck flags env).flags envs) env2).msg = "") := by
  obtain ⟨ho, hr, hw⟩ := gatherState_failed flags env e herr
  have hs := setWarnFlags_disables flags env.createErr (gatherState flags env).state hw hr hc1 hc2
  have hmsg : getWarnMessage (gatherState flags env).state = "" := by
    rw [getWarnMessage_no_optional _ ho (fun _ => hr), hr]
    decide
  have hnf : flags.warningsDisabled ≠ FileStatus.found := by
    intro hf
    rw [gatherState_disabled flags env hf] at herr
    simp at herr
  refine ⟨hnf, hr, ho, hmsg, List.mem_append_right _ hs.2, hs.1, fun envs env2 => ?_⟩
  have hk := runAll_keeps_warningsDisabled envs (runCheck flags env).flags hs.1
  refine ⟨hk, ?_⟩
  show getWarnMessage (gatherState (runAll (runCheck flags env).flags envs) env2).state = ""
  rw [gatherState_disabled _ env2 hk]
  simp [getWarnMessage]

theorem C18_failed_check_disables_warnings_witness :
    freshFlags.warningsDisabled = FileStatus.notExist ∧
      (gatherState freshFlags envOracleFails).err =
        some "exec: snapctl: executable file not found" ∧
      envOracleFails.createErr File.alreadyWarned = none ∧
      envOracleFails.createErr File.warningsDisabled = none ∧
      (freshFlags.warningsDisabled ≠ FileStatus.found ∧
        (runCheck freshFlags envOracleFails).state.RequiredPlugs = [] ∧
        (runCheck freshFlags envOracleFails).state.OptionalPlugs = [] ∧
        (runCheck freshFlags envOracleFails).msg = "" ∧
        Event.create File.warningsDisabled ∈ (runCheck freshFlags envOracleFails).trace ∧
        (runCheck freshFlags envOracleFails).flags.warningsDisabled = FileStatus.found ∧
        (∀ (envs : List Env) (env2 : Env),
          (runAll (runCheck freshFlags envOracleFails).flags envs).warningsDisabled =
              FileStatus.found ∧
            (runCheck (runAll (runCheck freshFlags envOracleFails).flags envs) env2).msg = "")) :=
  ⟨rfl, by decide, rfl, rfl,
    C18_failed_check_disables_warnings freshFlags envOracleFails
      "exec: snapctl: executable file not found" (by decide) rfl rfl⟩

/-- C15: in a successful `gatherState` run with the WarningsDisabled marker
absent, every entry of the returned `RequiredPlugs` and `OptionalPlugs` has
its `Connected` field equal to the answer of the oracle for its name, and the
`Required` and `Reason` of the entry of that name in what was loaded. -/
theorem C15_connected_is_oracle_answer (flags : FlagStore) (env : Env)
    (hd : flags.warningsDisabled = FileStatus.notExist)
    (h : (gatherState flags env).err = none) :
    (∀ e ∈ (gatherState flags env).state.RequiredPlugs,
        plugIsConnected (env.snapctl e.1) = (e.2.Connected, none) ∧
          ∃ w, (e.1, w) ∈ loadedRequired env ∧
            e.2.Required = w.Required ∧ e.2.Reason = w.Reason) ∧
      (∀ e ∈ (gatherState flags env).state.OptionalPlugs,
        plugIsConnected (env.snapctl e.1) = (e.2.Connected, none) ∧
          ∃ w, (e.1, w) ∈ loadedOptional flags env ∧
            e.2.Required = w.Required ∧ e.2.Reason = w.Reason) := by
  obtain ⟨warned, plugsYamlExists, requiredPlugs3, optionalPlugs3, trace3, optionalPlugs4,
    trace4, hR, hO, hG⟩ := gatherState_ok_loaded flags env hd h
  have hR1 : (checkRequired env.snapctl (loadedRequired env) (loadedRequired env)
      (loadedOptional flags env) (loadTrace plugsYamlExists warned)).2.2.1 = none := by rw [hR]
  have hO1 : (checkOptional env.snapctl optionalPlugs3 optionalPlugs3 trace3).2.1 = none := by
    rw [hO]
  have hnd := checkRequired_nodup env.snapctl (loadedRequired env) (loadedRequired env)
    (loadedOptional flags env) (loadTrace plugsYamlExists warned)
    (loadedRequired_nodup env) (loadedOptional_nodup flags env)
  rw [hR] at hnd
  have hnd4 := checkOptional_nodup env.snapctl optionalPlugs3 optionalPlugs3 trace3 hnd.2
  rw [hO] at hnd4
  rw [hG]
  constructor
  · rintro ⟨n, v⟩ he
    have hget := PlugMap.get?_of_mem requiredPlugs3 hnd.1 n v he
    rcases checkRequired_value env.snapctl _ _ _ _ hR1 n v (by rw [hR]; exact hget) with
      ⟨w, h1, h2, h3, h4⟩ | ⟨h1, h2⟩
    · exact ⟨h4, w, h1, h2, h3⟩
    · exact absurd ((PlugMap.mem_keys_iff _ _).mpr ⟨v, PlugMap.mem_of_get? _ _ _ h2⟩) h1
  · rintro ⟨n, v⟩ he
    have hget := PlugMap.get?_of_mem optionalPlugs4 hnd4 n v he
    rcases checkOptional_value env.snapctl _ _ _ hO1 n v (by rw [hO]; exact hget) with
      ⟨w, h1, h2, h3, h4⟩ | ⟨h1, h2⟩
    · refine ⟨h4, w, ?_, h2, h3⟩
      exact checkRequired_optional_mem env.snapctl _ _ _ _ (n, w) (by rw [hR]; exact h1)
    · exact absurd ((PlugMap.mem_keys_iff _ _).mpr ⟨v, PlugMap.mem_of_get? _ _ _ h2⟩) h1

theorem C15_connected_is_oracle_answer_witness :
    freshFlags.warningsDisabled = FileStatus.notExist ∧
      (gatherState freshFlags envE).err = none ∧
      ((∀ e ∈ (gatherState freshFlags envE).state.RequiredPlugs,
          plugIsConnected (envE.snapctl e.1) = (e.2.Connected, none) ∧
            ∃ w, (e.1, w) ∈ loadedRequired envE ∧
              e.2.Required = w.Required ∧ e.2.Reason = w.Reason) ∧
        (∀ e ∈ (gatherState freshFlags envE).state.OptionalPlugs,
          plugIsConnected (envE.snapctl e.1) = (e.2.Connected, none) ∧
            ∃ w, (e.1, w) ∈ loadedOptional freshFlags envE ∧
              e.2.Required = w.Required ∧ e.2.Reason = w.Reason)) :=
  ⟨rfl, by decide, C15_connected_is_oracle_answer freshFlags envE rfl (by decide)⟩

/-- C16: in a successful `gatherState` run with the WarningsDisabled marker
absent, the oracle is queried exactly once for each name that is a key of the
returned `RequiredPlugs` or `OptionalPlugs` and never for another name; so a
name that is declared required and referenced by the manifest is queried once. -/
theorem C16_each_plug_queried_once (flags : FlagStore) (env : Env)
    (hd : flags.warningsDisabled = FileStatus.notExist)
    (h : (gatherState flags env).err = none) (n : String) :
    List.count (Event.query n) (gatherState flags env).trace =
      if n ∈ PlugMap.keys (gatherState flags env).state.RequiredPlugs ∨
          n ∈ PlugMap.keys (gatherState flags env).state.OptionalPlugs then 1 else 0 := by
  obtain ⟨warned, plugsYamlExists, requiredPlugs3, optionalPlugs3, trace3, optionalPlugs4,
    trace4, hR, hO, hG⟩ := gatherState_ok_loaded flags env hd h
  have hR1 : (checkRequired env.snapctl (loadedRequired env) (loadedRequired env)
      (loadedOptional flags env) (loadTrace plugsYamlExists warned)).2.2.1 = none := by rw [hR]
  have hO1 : (checkOptional env.snapctl optionalPlugs3 optionalPlugs3 trace3).2.1 = none := by
    rw [hO]
  have hnd := checkRequired_nodup env.snapctl (loadedRequired env) (loadedRequired env)
    (loadedOptional flags env) (loadTrace plugsYamlExists warned)
    (loadedRequired_nodup env) (loadedOptional_nodup flags env)
  rw [hR] at hnd
  have ht3 := checkRequired_trace_eq env.snapctl _ _ _ _ hR1
  rw [hR] at ht3
  have ht4 := checkOptional_trace_eq env.snapctl _ _ _ hO1
  rw [hO] at ht4
  simp only at ht3 ht4
  have kreq : n ∈ PlugMap.keys requiredPlugs3 ↔ n ∈ PlugMap.keys (loadedRequired env) := by
    have := checkRequired_required_keys env.snapctl _ _ _ _ hR1 n
    rw [hR] at this
    simpa using this
  have kopt3 : n ∈ PlugMap.keys optionalPlugs3 ↔
      n ∈ PlugMap.keys (loadedOptional flags env) ∧ n ∉ PlugMap.keys (loadedRequired env) := by
    have := checkRequired_optional_keys env.snapctl _ _ _ _ hR1 n
    rw [hR] at this
    exact this
  have kopt4 : n ∈ PlugMap.keys optionalPlugs4 ↔ n ∈ PlugMap.keys optionalPlugs3 := by
    have := checkOptional_keys env.snapctl _ _ _ hO1 n
    rw [hO] at this
    simpa using this
  rw [hG]
  simp only [kreq, kopt4]
  rw [ht4, ht3, List.count_append, List.count_append, count_query_loadTrace,
    count_query_map, count_query_map]
  by_cases h1 : n ∈ PlugMap.keys (loadedRequired env)
  · have h2 : n ∉ PlugMap.keys optionalPlugs3 := fun hx => (kopt3.mp hx).2 h1
    rw [List.count_eq_one_of_mem (loadedRequired_nodup env) h1,
      List.count_eq_zero_of_not_mem h2]
    simp [h1]
  · by_cases h2 : n ∈ PlugMap.keys optionalPlugs3
    · rw [List.count_eq_zero_of_not_mem h1, List.count_eq_one_of_mem hnd.2 h2]
      simp [h2]
    · rw [List.count_eq_zero_of_not_mem h1, List.count_eq_zero_of_not_mem h2]
      simp [h1, h2]

theorem C16_each_plug_queried_once_witness :
    freshFlags.warningsDisabled = FileStatus.notExist ∧
      (gatherState freshFlags envE).err = none ∧
      List.count (Event.query "net") (gatherState freshFlags envE).trace =
        if "net" ∈ PlugMap.keys (gatherState freshFlags envE).state.RequiredPlugs ∨
            "net" ∈ PlugMap.keys (gatherState freshFlags envE).state.OptionalPlugs
          then 1 else 0 :=
  ⟨rfl, by decide, C16_each_plug_queried_once freshFlags envE rfl (by decide) "net"⟩

theorem scenarioE_queries :
    (gatherState freshFlags envE).trace =
        [Event.stat File.warningsDisabled, Event.stat File.alreadyWarned,
          Event.stat File.plugsYaml, Event.openFile File.plugsYaml,
          Event.openFile File.snapYaml,
          Event.query "net", Event.query "home", Event.query "camera"] ∧
      PlugMap.keys (gatherState freshFlags envE).state.RequiredPlugs = ["net"] ∧
      PlugMap.keys (gatherState freshFlags envE).state.OptionalPlugs = ["home", "camera"] := by
  decide

end WarnPlugs
